import Mathlib

/-!
Shallow embedding of the clox single-pass compiler (src/clox/compiler.c and
src/clox/chunk.c).  The scanner is external to the compiler (spec section 6),
so a compilation's input is its token stream; machine integers are modelled
as Nat/Int with explicit wrap-around where the C code relies on it; the
process-wide parser/compiler singletons become one explicit state record
threaded through every function.  Mutual recursion of the Pratt engine is
expressed with a fuel parameter; at fuel zero every engine function returns
its state unchanged, and every concrete run below uses ample fuel.
-/

namespace Lox

/-- Opcode byte values.  Modelled from the spec: chunk.h (the OpCode enum) is
not under src/, so the numbering follows the spec's section-6 instruction
table order; no claim depends on the numeric values, only on the opcodes
being pairwise distinct bytes.  The name OP_SUBSTRACT is compiler.c's. -/
def OP_CONSTANT : Nat := 0
def OP_NIL : Nat := 1
def OP_TRUE : Nat := 2
def OP_FALSE : Nat := 3
def OP_POP : Nat := 4
def OP_GET_LOCAL : Nat := 5
def OP_SET_LOCAL : Nat := 6
def OP_GET_GLOBAL : Nat := 7
def OP_DEFINE_GLOBAL : Nat := 8
def OP_SET_GLOBAL : Nat := 9
def OP_GET_UPVALUE : Nat := 10
def OP_SET_UPVALUE : Nat := 11
def OP_GET_PROPERTY : Nat := 12
def OP_SET_PROPERTY : Nat := 13
def OP_GET_SUPER : Nat := 14
def OP_EQUAL : Nat := 15
def OP_GREATER : Nat := 16
def OP_LESS : Nat := 17
def OP_ADD : Nat := 18
def OP_SUBSTRACT : Nat := 19
def OP_MULTIPLY : Nat := 20
def OP_DIVIDE : Nat := 21
def OP_NOT : Nat := 22
def OP_NEGATE : Nat := 23
def OP_PRINT : Nat := 24
def OP_JUMP : Nat := 25
def OP_JUMP_IF_FALSE : Nat := 26
def OP_LOOP : Nat := 27
def OP_CALL : Nat := 28
def OP_INVOKE : Nat := 29
def OP_SUPER_INVOKE : Nat := 30
def OP_CLOSURE : Nat := 31
def OP_CLOSE_UPVALUE : Nat := 32
def OP_RETURN : Nat := 33
def OP_CLASS : Nat := 34
def OP_INHERIT : Nat := 35
def OP_METHOD : Nat := 36

/-- Token kinds, as the scanner interface of the spec lists them. -/
inductive TokenType where
  | LEFT_PAREN | RIGHT_PAREN | LEFT_BRACE | RIGHT_BRACE
  | COMMA | DOT | MINUS | PLUS | SEMICOLON | SLASH | STAR
  | BANG | BANG_EQUAL | EQUAL | EQUAL_EQUAL
  | GREATER | GREATER_EQUAL | LESS | LESS_EQUAL
  | IDENTIFIER | STRING | NUMBER
  | AND | CLASS | ELSE | FALSE | FOR | FUN | IF | NIL | OR
  | PRINT | RETURN | SUPER | THIS | TRUE | VAR | WHILE
  | ERROR | EOF
  deriving DecidableEq, Repr

/-- One scanner token: kind, its lexeme (the C start/length byte range of the
source, as a string) and its source line. -/
structure Token where
  ttype : TokenType
  lexeme : String
  line : Nat
  deriving DecidableEq, Repr

def eofToken : Token := ⟨.EOF, "", 0⟩

mutual
/-- Runtime values a chunk's constant pool can hold: numbers, (interned)
strings and function objects; the other object kinds never enter a pool
during compilation. -/
inductive Value where
  | vnum (n : Int)
  | vstr (s : String)
  | vfun (f : ObjFunction)

/-- ObjFunction as the compiler observes it: arity, upvalueCount, optional
name, and its chunk. -/
inductive ObjFunction where
  | mk (arity : Nat) (upvalueCount : Nat) (name : Option String) (chunk : Chunk)

/-- Chunk (chunk.c): code byte array, parallel line array, constant pool.
The C count/capacity pair is the list's length (capacity is allocator
bookkeeping with no observable content). -/
inductive Chunk where
  | mk (code : List Nat) (lines : List Nat) (constants : List Value)
end

def Chunk.code : Chunk → List Nat
  | .mk c _ _ => c

def Chunk.lines : Chunk → List Nat
  | .mk _ l _ => l

def Chunk.constants : Chunk → List Value
  | .mk _ _ k => k

def ObjFunction.arity : ObjFunction → Nat
  | .mk a _ _ _ => a

def ObjFunction.upvalueCount : ObjFunction → Nat
  | .mk _ u _ _ => u

def ObjFunction.name : ObjFunction → Option String
  | .mk _ _ n _ => n

def ObjFunction.chunk : ObjFunction → Chunk
  | .mk _ _ _ c => c

/-- initChunk: empty code, lines and constant pool. -/
def initChunk : Chunk := .mk [] [] []

/-- writeChunk (chunk.c): append one code byte and one line number together.
The capacity-growth branch reallocates both arrays and is invisible here. -/
def writeChunk : Chunk → Nat → Nat → Chunk
  | .mk c l k, byte, line => .mk (c ++ [byte]) (l ++ [line]) k

/-- addConstant (chunk.c): append a constant, return its index
(constants.count - 1 after the append).  The push/pop around the append
only roots the value for the GC. -/
def addConstant : Chunk → Value → Chunk × Nat
  | .mk c l k, v => (.mk c l (k ++ [v]), k.length)

/-- Direct in-place write of one code byte, as patchJump performs it
(chunk->code[offset] = b). -/
def Chunk.setByte : Chunk → Nat → Nat → Chunk
  | .mk c l k, i, b => .mk (c.set i b) l k

/-- Local (compiler.c): name token (its lexeme), scope depth with the -1
"declared, not initialised" sentinel, captured flag. -/
structure Local where
  name : String
  depth : Int
  isCaptured : Bool
  deriving DecidableEq, Repr

/-- Upvalue descriptor: index byte and isLocal flag. -/
structure Upvalue where
  index : Nat
  isLocal : Bool
  deriving DecidableEq, Repr

/-- FunctionType of compiler.c. -/
inductive FunctionType where
  | FUNCTION | INITIALIZER | METHOD | SCRIPT
  deriving DecidableEq, Repr

/-- One Compiler struct of compiler.c: the per-function compilation context.
The enclosing back-pointer becomes the tail of the state's frame list; the
function object under construction is flattened into name/arity/chunk, and
function->upvalueCount is upvalues.length (addUpvalue keeps them equal). -/
structure Frame where
  ftype : FunctionType
  name : Option String
  arity : Nat
  upvalues : List Upvalue
  chunk : Chunk
  locals : List Local
  scopeDepth : Int

/-- The process-wide compilation state: the Parser singleton (current,
previous, hadError, panicMode), the scanner's remaining tokens, the list of
diagnostics actually printed to stderr (errorAt's message argument), the
Compiler chain (head = current) and the ClassCompiler chain (each entry its
hasSuperclass flag). -/
structure St where
  toks : List Token
  cur : Token
  prev : Token
  hadError : Bool
  panicMode : Bool
  msgs : List String
  frames : List Frame
  classes : List Bool

def defaultFrame : Frame :=
  ⟨.SCRIPT, none, 0, [], initChunk, [], 0⟩

/-- The `current` compiler.  Reachable states always have a frame; the
default is never read during a compilation. -/
def St.curFrame (st : St) : Frame := st.frames.headD defaultFrame

def St.setCurFrame (st : St) (f : Frame) : St :=
  { st with frames := f :: st.frames.tail }

def modFrame (g : Frame → Frame) (st : St) : St :=
  st.setCurFrame (g st.curFrame)

/-- errorAt (compiler.c): while panicMode, print nothing; otherwise enter
panicMode, print the diagnostic and set hadError.  The [line N] location
text is stderr formatting; the message string is what the model records. -/
def errorAt (msg : String) (st : St) : St :=
  if st.panicMode then st
  else { st with panicMode := true, msgs := st.msgs ++ [msg], hadError := true }

/-- error() reports at parser.previous, errorAtCurrent at parser.current;
both only change where the location text points, so both are errorAt. -/
def errorP (msg : String) (st : St) : St := errorAt msg st

def errorAtCurrent (msg : String) (st : St) : St := errorAt msg st

/-- scanToken through the advance loop: pull tokens, absorbing ERROR tokens
by reporting them (message = the error token's lexeme) and continuing.  The
scanner returns EOF forever once the stream is exhausted. -/
def skipErrors : List Token → St → St
  | [], st => { st with toks := [], cur := eofToken }
  | t :: ts, st =>
    if t.ttype = .ERROR then
      skipErrors ts (errorAtCurrent t.lexeme { st with toks := ts, cur := t })
    else { st with toks := ts, cur := t }

/-- advance (compiler.c): previous := current, then scan past ERROR tokens. -/
def advance (st : St) : St :=
  skipErrors st.toks { st with prev := st.cur }

/-- consume: advance when the current token has the expected kind, else
report at the current token. -/
def consume (t : TokenType) (msg : String) (st : St) : St :=
  if st.cur.ttype = t then advance st else errorAtCurrent msg st

/-- check: kind test on the current token. -/
def check (t : TokenType) (st : St) : Bool := st.cur.ttype = t

/-- match (compiler.c): advance only on a kind match.  Named matchTok since
match is a Lean keyword. -/
def matchTok (t : TokenType) (st : St) : Bool × St :=
  if st.cur.ttype = t then (true, advance st) else (false, st)

/-- emitByte: one byte into the current chunk, at parser.previous.line. -/
def emitByte (b : Nat) (st : St) : St :=
  modFrame (fun f => { f with chunk := writeChunk f.chunk b st.prev.line }) st

def emitBytes (b1 b2 : Nat) (st : St) : St :=
  emitByte b2 (emitByte b1 st)

/-- emitJump: the instruction followed by two 0xff placeholder bytes; return
currentChunk()->count - 2, the index of the first placeholder. -/
def emitJump (instruction : Nat) (st : St) : Nat × St :=
  let st := emitByte instruction st
  let st := emitByte 255 st
  let st := emitByte 255 st
  (st.curFrame.chunk.code.length - 2, st)

/-- emitLoop: OP_LOOP with a 16-bit big-endian backward distance; the C
offset variable is a nonnegative int at every call site (loopStart is an
earlier count), so Nat subtraction agrees with it. -/
def emitLoop (loopStart : Nat) (st : St) : St :=
  let st := emitByte OP_LOOP st
  let offset : Nat := st.curFrame.chunk.code.length - loopStart + 2
  let st := if offset > 65535 then errorP "Loop body too large." st else st
  emitByte (offset % 256) (emitByte (offset / 256 % 256) st)

/-- emitReturn: GET_LOCAL 0 (the instance) for an initializer, NIL
otherwise, then RETURN. -/
def emitReturn (st : St) : St :=
  let st :=
    if st.curFrame.ftype = .INITIALIZER then emitBytes OP_GET_LOCAL 0 st
    else emitByte OP_NIL st
  emitByte OP_RETURN st

/-- makeConstant: addConstant, then error and index 0 when the new index
exceeds UINT8_MAX (the 257th constant of one chunk); the cast to uint8_t is
exact on the non-error path since the index is at most 255 there. -/
def makeConstant (v : Value) (st : St) : Nat × St :=
  let f := st.curFrame
  let r := addConstant f.chunk v
  let st := st.setCurFrame { f with chunk := r.1 }
  if r.2 > 255 then (0, errorP "Too many constants in one chunks." st)
  else (r.2, st)

/-- emitConstant: OP_CONSTANT plus the pool index makeConstant returns. -/
def emitConstant (v : Value) (st : St) : St :=
  let r := makeConstant v st
  emitBytes OP_CONSTANT r.1 r.2

/-- patchJump: jump = count - offset - 2; diagnose a distance above
UINT16_MAX, then write the distance big-endian over the two placeholder
bytes.  Every call site passes an offset returned by emitJump on the same
chunk, so the C int jump is nonnegative and Nat subtraction agrees. -/
def patchJump (offset : Nat) (st : St) : St :=
  let jump : Nat := st.curFrame.chunk.code.length - offset - 2
  let st := if jump > 65535 then errorP "Cannot jump this far !" st else st
  modFrame
    (fun f =>
      { f with chunk := (f.chunk.setByte offset (jump / 256 % 256)).setByte (offset + 1) (jump % 256) })
    st

/-- initCompiler: push a fresh Compiler as current; non-script functions take
their name from parser.previous; slot 0 of the locals is reserved, named
this except for plain functions, at depth 0. -/
def initCompiler (ftype : FunctionType) (st : St) : St :=
  let name : Option String :=
    if ftype ≠ .SCRIPT then some st.prev.lexeme else none
  let slot0 : Local :=
    if ftype ≠ .FUNCTION then ⟨"this", 0, false⟩ else ⟨"", 0, false⟩
  let f : Frame :=
    { ftype := ftype, name := name, arity := 0, upvalues := [],
      chunk := initChunk, locals := [slot0], scopeDepth := 0 }
  { st with frames := f :: st.frames }

/-- endCompiler: emit the implicit return, unlink the current compiler and
yield the finished function object (the frame is also returned: function()
reads its upvalue table for the closure trailer). -/
def endCompiler (st : St) : ObjFunction × Frame × St :=
  let st := emitReturn st
  let f := st.curFrame
  (.mk f.arity f.upvalues.length f.name f.chunk, f, { st with frames := st.frames.tail })

def beginScope (st : St) : St :=
  modFrame (fun f => { f with scopeDepth := f.scopeDepth + 1 }) st

/-- endScope's pop loop over the locals, topmost first (the input list is
the locals reversed): drop every local deeper than the new scope depth,
emitting CLOSE_UPVALUE for captured ones and POP otherwise. -/
def popLocals : List Local → Int → St → List Local × St
  | [], _, st => ([], st)
  | l :: rest, depth, st =>
    if l.depth > depth then
      let st := if l.isCaptured then emitByte OP_CLOSE_UPVALUE st
                else emitByte OP_POP st
      popLocals rest depth st
    else (l :: rest, st)

/-- endScope: decrement scopeDepth, then pop the locals of the closed
scope. -/
def endScope (st : St) : St :=
  let st := modFrame (fun f => { f with scopeDepth := f.scopeDepth - 1 }) st
  let r := popLocals st.curFrame.locals.reverse st.curFrame.scopeDepth st
  modFrame (fun f => { f with locals := r.1.reverse }) r.2

/-- identifiersEqual: length plus memcmp over the lexemes, which is string
equality. -/
def identifiersEqual (a b : String) : Bool := a = b

/-- resolveLocal's walk, i from localCount - 1 down to 0, over the (index,
local) pairs listed topmost first: on the first name match, diagnose a
depth of -1 and return the slot index; -1 when no local matches. -/
def resolveLocalAux : List (Nat × Local) → String → St → Int × St
  | [], _, st => (-1, st)
  | (i, l) :: rest, name, st =>
    if identifiersEqual l.name name then
      let st :=
        if l.depth = -1 then
          errorP "Can't read local variable in its own initializer." st
        else st
      ((i : Int), st)
    else resolveLocalAux rest name st

/-- resolveLocal (compiler.c) on one Compiler's locals. -/
def resolveLocal (f : Frame) (name : String) (st : St) : Int × St :=
  resolveLocalAux f.locals.enum.reverse name st

/-- addUpvalue's deduplication scan: the index of an existing {index,
isLocal} descriptor. -/
def findUpvalue : List Upvalue → Nat → Bool → Nat → Option Nat
  | [], _, _, _ => none
  | u :: rest, index, isLocal, i =>
    if u.index = index ∧ u.isLocal = isLocal then some i
    else findUpvalue rest index isLocal (i + 1)

/-- addUpvalue: reuse a matching descriptor; at 256 descriptors report and
return 0 without adding; otherwise append {index, isLocal} and return the
old upvalueCount. -/
def addUpvalue (f : Frame) (index : Nat) (isLocal : Bool) (st : St) :
    Int × Frame × St :=
  match findUpvalue f.upvalues index isLocal 0 with
  | some i => ((i : Int), f, st)
  | none =>
    if f.upvalues.length = 256 then
      (0, f, errorP "Too many closure variable in function." st)
    else
      ((f.upvalues.length : Int),
       { f with upvalues := f.upvalues ++ [⟨index, isLocal⟩] }, st)

/-- Mark one local (by slot index) captured, as resolveUpvalue does to the
enclosing compiler's local. -/
def markCapturedAt : List Local → Nat → List Local
  | [], _ => []
  | l :: rest, 0 => { l with isCaptured := true } :: rest
  | l :: rest, Nat.succ i => l :: markCapturedAt rest i

/-- resolveUpvalue (compiler.c) over the compiler chain (head = the compiler
resolving the name): with no enclosing compiler, -1; a local of the
immediate parent is marked captured and added as {slot, isLocal = true}; a
name the parent resolves (recursively) to an upvalue is added as {parent
upvalue index, isLocal = false}.  The uint8_t casts of the C call sites are
the explicit mod 256. -/
def resolveUpvalue : List Frame → String → St → Int × List Frame × St
  | [], _, st => (-1, [], st)
  | [f], _, st => (-1, [f], st)
  | f :: e :: rest, name, st =>
    let rl := resolveLocal e name st
    if rl.1 ≠ -1 then
      let e := { e with locals := markCapturedAt e.locals (rl.1.toNat % 256) }
      let ru := addUpvalue f (rl.1.toNat % 256) true rl.2
      (ru.1, ru.2.1 :: e :: rest, ru.2.2)
    else
      let rr := resolveUpvalue (e :: rest) name rl.2
      if rr.1 ≠ -1 then
        match rr.2.1 with
        | e2 :: rest2 =>
          let ru := addUpvalue f (rr.1.toNat % 256) false rr.2.2
          (ru.1, ru.2.1 :: e2 :: rest2, ru.2.2)
        | [] => (-1, [f], rr.2.2)
      else (-1, f :: rr.2.1, rr.2.2)

/-- identifierConstant: intern the name (copyString) into the constant pool
as a string constant. -/
def identifierConstant (name : String) (st : St) : Nat × St :=
  makeConstant (.vstr name) st

/-- addLocal: cap at 256 locals (UINT8_COUNT), else push the name with the
depth -1 "declared" sentinel, uncaptured. -/
def addLocal (name : String) (st : St) : St :=
  if st.curFrame.locals.length = 256 then
    errorP "Too many local variables in function (max 256)." st
  else
    modFrame (fun f => { f with locals := f.locals ++ [⟨name, -1, false⟩] }) st

/-- declareVariable's duplicate scan over the locals, topmost first: stop at
the first local of an outer scope (depth set and below scopeDepth), report
a duplicate name in the same scope, and keep scanning after a report. -/
def declareCheck : List Local → String → Int → St → St
  | [], _, _, st => st
  | l :: rest, name, sd, st =>
    if l.depth ≠ -1 ∧ l.depth < sd then st
    else
      let st :=
        if identifiersEqual name l.name then
          errorP "Already a variable with this name in this scope." st
        else st
      declareCheck rest name sd st

/-- declareVariable: nothing at the top level; otherwise scan the current
scope for a duplicate of parser.previous and add the local. -/
def declareVariable (st : St) : St :=
  if st.curFrame.scopeDepth = 0 then st
  else
    let name := st.prev.lexeme
    let st := declareCheck st.curFrame.locals.reverse name st.curFrame.scopeDepth st
    addLocal name st

/-- parseVariable: consume the identifier and declare it; inside a scope the
name is a local and the returned constant index is 0, at the top level the
name is interned for by-name global addressing. -/
def parseVariable (errorMessage : String) (st : St) : Nat × St :=
  let st := consume .IDENTIFIER errorMessage st
  let st := declareVariable st
  if st.curFrame.scopeDepth > 0 then (0, st)
  else identifierConstant st.prev.lexeme st

/-- markInitialized's write to the last local's depth. -/
def setLastDepth : List Local → Int → List Local
  | [], _ => []
  | [l], d => [{ l with depth := d }]
  | l :: rest, d => l :: setLastDepth rest d

/-- markInitialized: nothing at the top level, else the newest local's depth
becomes the current scope depth (the name becomes resolvable). -/
def markInitialized (st : St) : St :=
  if st.curFrame.scopeDepth = 0 then st
  else modFrame (fun f => { f with locals := setLastDepth f.locals f.scopeDepth }) st

/-- defineVariable: a local is already on the runtime stack, so only mark it
initialised; a global gets OP_DEFINE_GLOBAL with its interned name index. -/
def defineVariable (global : Nat) (st : St) : St :=
  if st.curFrame.scopeDepth > 0 then markInitialized st
  else emitBytes OP_DEFINE_GLOBAL global st

/-- Precedence ladder (the Precedence enum's ordinals). -/
def PREC_NONE : Nat := 0
def PREC_ASSIGNMENT : Nat := 1
def PREC_OR : Nat := 2
def PREC_AND : Nat := 3
def PREC_EQUALITY : Nat := 4
def PREC_COMPARISON : Nat := 5
def PREC_TERM : Nat := 6
def PREC_FACTOR : Nat := 7
def PREC_UNARY : Nat := 8
def PREC_CALL : Nat := 9
def PREC_PRIMARY : Nat := 10

/-- Identifiers standing for the table's prefix handlers (the C function
pointers), dispatched inside the fueled engine which owns the state.  The
varRule tag stands for compiler.c's variable(); the Lean keyword forbids
that name. -/
inductive PreFn where
  | grouping | unary | varRule | number | stringRule | literal | superRule | thisRule
  deriving DecidableEq, Repr

/-- Identifiers standing for the table's infix handlers. -/
inductive InFn where
  | binary | call | dot | andRule | orRule
  deriving DecidableEq, Repr

/-- One row of the rules[] table. -/
structure ParseRule where
  pre : Option PreFn
  inf : Option InFn
  prec : Nat

/-- getRule: the static rules[] table indexed by token kind. -/
def getRule : TokenType → ParseRule
  | .LEFT_PAREN => ⟨some .grouping, some .call, PREC_CALL⟩
  | .RIGHT_PAREN => ⟨none, none, PREC_NONE⟩
  | .LEFT_BRACE => ⟨none, none, PREC_NONE⟩
  | .RIGHT_BRACE => ⟨none, none, PREC_NONE⟩
  | .COMMA => ⟨none, none, PREC_NONE⟩
  | .DOT => ⟨none, some .dot, PREC_CALL⟩
  | .MINUS => ⟨some .unary, some .binary, PREC_TERM⟩
  | .PLUS => ⟨none, some .binary, PREC_TERM⟩
  | .SEMICOLON => ⟨none, none, PREC_NONE⟩
  | .SLASH => ⟨none, some .binary, PREC_FACTOR⟩
  | .STAR => ⟨none, some .binary, PREC_FACTOR⟩
  | .BANG => ⟨some .unary, none, PREC_NONE⟩
  | .BANG_EQUAL => ⟨none, some .binary, PREC_EQUALITY⟩
  | .EQUAL => ⟨none, none, PREC_NONE⟩
  | .EQUAL_EQUAL => ⟨none, some .binary, PREC_EQUALITY⟩
  | .GREATER => ⟨none, some .binary, PREC_COMPARISON⟩
  | .GREATER_EQUAL => ⟨none, some .binary, PREC_COMPARISON⟩
  | .LESS => ⟨none, some .binary, PREC_COMPARISON⟩
  | .LESS_EQUAL => ⟨none, some .binary, PREC_COMPARISON⟩
  | .IDENTIFIER => ⟨some .varRule, none, PREC_NONE⟩
  | .STRING => ⟨some .stringRule, none, PREC_NONE⟩
  | .NUMBER => ⟨some .number, none, PREC_NONE⟩
  | .AND => ⟨none, some .andRule, PREC_AND⟩
  | .CLASS => ⟨none, none, PREC_NONE⟩
  | .ELSE => ⟨none, none, PREC_NONE⟩
  | .FALSE => ⟨some .literal, none, PREC_NONE⟩
  | .FOR => ⟨none, none, PREC_NONE⟩
  | .FUN => ⟨none, none, PREC_NONE⟩
  | .IF => ⟨none, none, PREC_NONE⟩
  | .NIL => ⟨some .literal, none, PREC_NONE⟩
  | .OR => ⟨none, some .orRule, PREC_OR⟩
  | .PRINT => ⟨none, none, PREC_NONE⟩
  | .RETURN => ⟨none, none, PREC_NONE⟩
  | .SUPER => ⟨some .superRule, none, PREC_NONE⟩
  | .THIS => ⟨some .thisRule, none, PREC_NONE⟩
  | .TRUE => ⟨some .literal, none, PREC_NONE⟩
  | .VAR => ⟨none, none, PREC_NONE⟩
  | .WHILE => ⟨none, none, PREC_NONE⟩
  | .ERROR => ⟨none, none, PREC_NONE⟩
  | .EOF => ⟨none, none, PREC_NONE⟩

/-- Numeric value of a NUMBER token's lexeme.  Modelled from the spec: the
byte-level scanner and the C library strtod are external collaborators; the
number lexemes the claims exercise are decimal integer literals, folded
here digit by digit. -/
def lexemeNumber (s : String) : Int :=
  Int.ofNat (s.data.foldl (fun a c => a * 10 + (c.toNat - 48)) 0)

/-- synchronize's token-skipping loop: stop past a semicolon or before a
statement keyword.  The fuel dominates the remaining token count in every
use, so the cutoff is never the exit taken. -/
def syncLoop : Nat → St → St
  | 0, st => st
  | fuel + 1, st =>
    if st.cur.ttype = .EOF then st
    else if st.prev.ttype = .SEMICOLON then st
    else
      match st.cur.ttype with
      | .CLASS | .FUN | .VAR | .FOR | .IF | .WHILE | .PRINT | .RETURN => st
      | _ => syncLoop fuel (advance st)

/-- synchronize: clear panicMode and discard tokens to a statement
boundary. -/
def synchronize (st : St) : St :=
  syncLoop (st.toks.length + 1) { st with panicMode := false }

/-- function()'s parameter loop (do-while over commas): count arity, cap at
255, parse each parameter as an immediately defined local. -/
def paramLoop : Nat → St → St
  | 0, st => st
  | fuel + 1, st =>
    let st := modFrame (fun f => { f with arity := f.arity + 1 }) st
    let st :=
      if st.curFrame.arity > 255 then
        errorAtCurrent "Can't have more than 255 parameters." st
      else st
    let r := parseVariable "Expect parameter name." st
    let st := defineVariable r.1 r.2
    let m := matchTok .COMMA st
    if m.1 then paramLoop fuel m.2 else m.2

/-- Closure trailer after OP_CLOSURE: per upvalue one byte 1/0 for isLocal,
then the slot or upvalue index byte. -/
def emitUpvalTrailer : List Upvalue → St → St
  | [], st => st
  | u :: rest, st =>
    emitUpvalTrailer rest
      (emitByte (u.index % 256) (emitByte (if u.isLocal then 1 else 0) st))

/-- number: push the literal's value as a constant. -/
def numberRule (st : St) : St :=
  emitConstant (.vnum (lexemeNumber st.prev.lexeme)) st

/-- string: push the interned lexeme with the surrounding quotes stripped. -/
def stringRule (st : St) : St :=
  emitConstant (.vstr ((st.prev.lexeme.drop 1).dropRight 1)) st

/-- literal: dedicated single-byte opcode for nil, true, false. -/
def literalRule (st : St) : St :=
  match st.prev.ttype with
  | .NIL => emitByte OP_NIL st
  | .TRUE => emitByte OP_TRUE st
  | .FALSE => emitByte OP_FALSE st
  | _ => st

mutual

/-- parsePrecendence (compiler.c, the source's spelling): advance, run the
prefix rule of the consumed token with canAssign = precedence at most
assignment, fold infix rules while the current token's precedence allows,
then diagnose a leftover = when canAssign. -/
def parsePrecendence : Nat → Nat → St → St
  | 0, _, st => st
  | fuel + 1, precedence, st =>
    let st := advance st
    match (getRule st.prev.ttype).pre with
    | none => errorP "Expect expression." st
    | some p =>
      let canAssign : Bool := precedence ≤ PREC_ASSIGNMENT
      let st := runPre fuel p canAssign st
      let st := infixLoop fuel precedence canAssign st
      if canAssign then
        let m := matchTok .EQUAL st
        if m.1 then errorP "Invalid assignement target." m.2 else m.2
      else st
  termination_by structural fuel => fuel

/-- The while loop of parsePrecendence: as long as the current token's rule
binds at least as tightly, advance and run its infix rule.  Every token of
precedence above PREC_NONE has an infix handler and the loop only runs for
precedence at least PREC_ASSIGNMENT, so the none branch is unreachable (in
C the null pointer would be called). -/
def infixLoop : Nat → Nat → Bool → St → St
  | 0, _, _, st => st
  | fuel + 1, precedence, canAssign, st =>
    if precedence ≤ (getRule st.cur.ttype).prec then
      let st := advance st
      match (getRule st.prev.ttype).inf with
      | none => st
      | some i => infixLoop fuel precedence canAssign (runIn fuel i canAssign st)
    else st
  termination_by structural fuel => fuel

/-- Prefix-handler dispatch (the C call through the function pointer). -/
def runPre : Nat → PreFn → Bool → St → St
  | 0, _, _, st => st
  | fuel + 1, p, canAssign, st =>
    match p with
    | .grouping => grouping fuel canAssign st
    | .unary => unary fuel canAssign st
    | .varRule => variableRule fuel canAssign st
    | .number => numberRule st
    | .stringRule => stringRule st
    | .literal => literalRule st
    | .superRule => superRule fuel canAssign st
    | .thisRule => thisRule fuel canAssign st
  termination_by structural fuel => fuel

/-- Infix-handler dispatch. -/
def runIn : Nat → InFn → Bool → St → St
  | 0, _, _, st => st
  | fuel + 1, i, canAssign, st =>
    match i with
    | .binary => binary fuel canAssign st
    | .call => call fuel canAssign st
    | .dot => dot fuel canAssign st
    | .andRule => andRule fuel canAssign st
    | .orRule => orRule fuel canAssign st
  termination_by structural fuel => fuel

/-- grouping: parse the inner expression and consume the closing paren. -/
def grouping : Nat → Bool → St → St
  | 0, _, st => st
  | fuel + 1, _, st =>
    let st := expression fuel st
    consume .RIGHT_PAREN "Expect ')' after expression." st
  termination_by structural fuel => fuel

/-- unary: parse the operand at unary precedence, then NOT or NEGATE. -/
def unary : Nat → Bool → St → St
  | 0, _, st => st
  | fuel + 1, _, st =>
    let operatorType := st.prev.ttype
    let st := parsePrecendence fuel PREC_UNARY st
    match operatorType with
    | .BANG => emitByte OP_NOT st
    | .MINUS => emitByte OP_NEGATE st
    | _ => st
  termination_by structural fuel => fuel

/-- binary: parse the right operand one precedence higher, then the
operator's opcode(s); != is EQUAL+NOT, >= is LESS+NOT, <= is GREATER+NOT. -/
def binary : Nat → Bool → St → St
  | 0, _, st => st
  | fuel + 1, _, st =>
    let operatorType := st.prev.ttype
    let rule := getRule operatorType
    let st := parsePrecendence fuel (rule.prec + 1) st
    match operatorType with
    | .BANG_EQUAL => emitBytes OP_EQUAL OP_NOT st
    | .EQUAL_EQUAL => emitByte OP_EQUAL st
    | .GREATER => emitByte OP_GREATER st
    | .GREATER_EQUAL => emitBytes OP_LESS OP_NOT st
    | .LESS => emitByte OP_LESS st
    | .LESS_EQUAL => emitBytes OP_GREATER OP_NOT st
    | .PLUS => emitByte OP_ADD st
    | .MINUS => emitByte OP_SUBSTRACT st
    | .STAR => emitByte OP_MULTIPLY st
    | .SLASH => emitByte OP_DIVIDE st
    | _ => st
  termination_by structural fuel => fuel

/-- call: the argument list then OP_CALL with the count byte. -/
def call : Nat → Bool → St → St
  | 0, _, st => st
  | fuel + 1, _, st =>
    let r := argumentList fuel st
    emitBytes OP_CALL r.1 r.2
  termination_by structural fuel => fuel

/-- dot: property name constant, then SET_PROPERTY on an assignment,
INVOKE (fused get+call) before a paren, else GET_PROPERTY. -/
def dot : Nat → Bool → St → St
  | 0, _, st => st
  | fuel + 1, canAssign, st =>
    let st := consume .IDENTIFIER "Expect property name after '.'." st
    let r := identifierConstant st.prev.lexeme st
    let name := r.1
    let st := r.2
    if canAssign then
      let m := matchTok .EQUAL st
      if m.1 then
        let st := expression fuel m.2
        emitBytes OP_SET_PROPERTY name st
      else dotTail fuel name m.2
    else dotTail fuel name st
  termination_by structural fuel => fuel

/-- The non-assignment tail of dot (shared by both canAssign branches of
the C conditional). -/
def dotTail : Nat → Nat → St → St
  | 0, _, st => st
  | fuel + 1, name, st =>
    let m := matchTok .LEFT_PAREN st
    if m.1 then
      let r := argumentList fuel m.2
      emitByte r.1 (emitBytes OP_INVOKE name r.2)
    else emitBytes OP_GET_PROPERTY name st
  termination_by structural fuel => fuel

/-- andRule (and_): JUMP_IF_FALSE over the right side, POP, right side at
and-precedence, patch. -/
def andRule : Nat → Bool → St → St
  | 0, _, st => st
  | fuel + 1, _, st =>
    let r := emitJump OP_JUMP_IF_FALSE st
    let st := emitByte OP_POP r.2
    let st := parsePrecendence fuel PREC_AND st
    patchJump r.1 st
  termination_by structural fuel => fuel

/-- orRule (or_): emulate jump-if-true with JUMP_IF_FALSE to the pop+rhs
block and an unconditional JUMP past it. -/
def orRule : Nat → Bool → St → St
  | 0, _, st => st
  | fuel + 1, _, st =>
    let elseJump := emitJump OP_JUMP_IF_FALSE st
    let endJump := emitJump OP_JUMP elseJump.2
    let st := patchJump elseJump.1 endJump.2
    let st := emitByte OP_POP st
    let st := parsePrecendence fuel PREC_OR st
    patchJump endJump.1 st
  termination_by structural fuel => fuel

/-- variable (compiler.c): load or store the name in parser.previous. -/
def variableRule : Nat → Bool → St → St
  | 0, _, st => st
  | fuel + 1, canAssign, st => namedVariable fuel st.prev.lexeme canAssign st
  termination_by structural fuel => fuel

/-- namedVariable: local slot, else upvalue index, else interned global
name; then SET on an assignment (canAssign shortcuts the = match) or GET. -/
def namedVariable : Nat → String → Bool → St → St
  | 0, _, _, st => st
  | fuel + 1, name, canAssign, st =>
    let rl := resolveLocal st.curFrame name st
    let d :=
      if rl.1 ≠ -1 then (OP_GET_LOCAL, OP_SET_LOCAL, rl.1.toNat % 256, rl.2)
      else
        let ru := resolveUpvalue rl.2.frames name rl.2
        let st := { ru.2.2 with frames := ru.2.1 }
        if ru.1 ≠ -1 then (OP_GET_UPVALUE, OP_SET_UPVALUE, ru.1.toNat % 256, st)
        else
          let rc := identifierConstant name st
          (OP_GET_GLOBAL, OP_SET_GLOBAL, rc.1 % 256, rc.2)
    let st := d.2.2.2
    if canAssign then
      let m := matchTok .EQUAL st
      if m.1 then
        let st := expression fuel m.2
        emitBytes d.2.1 d.2.2.1 st
      else emitBytes d.1 d.2.2.1 m.2
    else emitBytes d.1 d.2.2.1 st
  termination_by structural fuel => fuel

/-- super_ (compiler.c): diagnose use outside a class or without a
superclass; consume .identifier; load this, then either parse a call's
arguments, load super and SUPER_INVOKE, or load super and GET_SUPER. -/
def superRule : Nat → Bool → St → St
  | 0, _, st => st
  | fuel + 1, _, st =>
    let st :=
      match st.classes with
      | [] => errorP "Can't use 'super' outside of a class." st
      | hasSuperclass :: _ =>
        if ¬hasSuperclass then
          errorP "Can't use 'super' in a class with no superclass." st
        else st
    let st := consume .DOT "Expect '.' after 'super'." st
    let st := consume .IDENTIFIER "Expect superclass method name." st
    let r := identifierConstant st.prev.lexeme st
    let name := r.1
    let st := namedVariable fuel "this" false r.2
    let m := matchTok .LEFT_PAREN st
    if m.1 then
      let a := argumentList fuel m.2
      let st := namedVariable fuel "super" false a.2
      emitByte a.1 (emitBytes OP_SUPER_INVOKE name st)
    else
      let st := namedVariable fuel "super" false m.2
      emitBytes OP_GET_SUPER name st
  termination_by structural fuel => fuel

/-- this_ (compiler.c): outside a class only a diagnostic, else compile this
as a variable read (slot 0 of the method frame). -/
def thisRule : Nat → Bool → St → St
  | 0, _, st => st
  | fuel + 1, _, st =>
    match st.classes with
    | [] => errorP "Can't use 'this' outside of a class." st
    | _ :: _ => variableRule fuel false st
  termination_by structural fuel => fuel

/-- argumentList: 0 before a closing paren, else the comma do-while loop;
then consume the paren and return the uint8_t count. -/
def argumentList : Nat → St → Nat × St
  | 0, st => (0, st)
  | fuel + 1, st =>
    if check .RIGHT_PAREN st then
      (0, consume .RIGHT_PAREN "Expect ')' after arguments." st)
    else
      let r := argLoop fuel 0 st
      (r.1, consume .RIGHT_PAREN "Expect ')' after arguments." r.2)
  termination_by structural fuel => fuel

/-- argumentList's do-while body: parse one argument expression, diagnose a
count already at 255, then increment the uint8_t counter (wrapping at 256)
and continue past a comma. -/
def argLoop : Nat → Nat → St → Nat × St
  | 0, argCount, st => (argCount, st)
  | fuel + 1, argCount, st =>
    let st := expression fuel st
    let st :=
      if argCount = 255 then errorP "Can't have more than 255 arguments." st
      else st
    let argCount := (argCount + 1) % 256
    let m := matchTok .COMMA st
    if m.1 then argLoop fuel argCount m.2 else (argCount, m.2)
  termination_by structural fuel => fuel

/-- expression: parse at assignment precedence. -/
def expression : Nat → St → St
  | 0, st => st
  | fuel + 1, st => parsePrecendence fuel PREC_ASSIGNMENT st
  termination_by structural fuel => fuel

/-- block: declarations until a closing brace or EOF, then consume the
brace. -/
def block : Nat → St → St
  | 0, st => st
  | fuel + 1, st =>
    if ¬check .RIGHT_BRACE st ∧ ¬check .EOF st then
      block fuel (declaration fuel st)
    else consume .RIGHT_BRACE "Expect '\x7d' after block." st
  termination_by structural fuel => fuel

/-- function (compiler.c): fresh compiler and unconditional scope, the
parenthesised parameters, the braced body, then endCompiler and in the
enclosing compiler OP_CLOSURE with the function constant and the upvalue
trailer. -/
def functionRule : Nat → FunctionType → St → St
  | 0, _, st => st
  | fuel + 1, ftype, st =>
    let st := initCompiler ftype st
    let st := beginScope st
    let st := consume .LEFT_PAREN "Expect '(' after function name." st
    let st :=
      if ¬check .RIGHT_PAREN st then paramLoop (fuel + 1) st else st
    let st := consume .RIGHT_PAREN "Expect ')' after parameters." st
    let st := consume .LEFT_BRACE "Expect '\x7b' before function body." st
    let st := block fuel st
    let r := endCompiler st
    let c := makeConstant (.vfun r.1) r.2.2
    let st := emitBytes OP_CLOSURE c.1 c.2
    emitUpvalTrailer r.2.1.upvalues st
  termination_by structural fuel => fuel

/-- method: name constant, Initializer kind exactly for init, the function
body, then OP_METHOD binding it. -/
def method : Nat → St → St
  | 0, st => st
  | fuel + 1, st =>
    let st := consume .IDENTIFIER "Expect method name." st
    let r := identifierConstant st.prev.lexeme st
    let ftype : FunctionType :=
      if st.prev.lexeme = "init" then .INITIALIZER else .METHOD
    let st := functionRule fuel ftype r.2
    emitBytes OP_METHOD r.1 st
  termination_by structural fuel => fuel

/-- classDeclaration's method loop until the closing brace or EOF. -/
def methodLoop : Nat → St → St
  | 0, st => st
  | fuel + 1, st =>
    if ¬check .RIGHT_BRACE st ∧ ¬check .EOF st then
      methodLoop fuel (method fuel st)
    else st
  termination_by structural fuel => fuel

/-- classDeclaration: OP_CLASS and the binding, the class-compiler push,
optional inheritance (superclass load, the synthetic super scope,
INHERIT), the methods with the class reloaded on the stack, POP, and the
super scope's end. -/
def classDeclaration : Nat → St → St
  | 0, st => st
  | fuel + 1, st =>
    let st := consume .IDENTIFIER "Expect class name." st
    let className := st.prev.lexeme
    let r := identifierConstant st.prev.lexeme st
    let st := declareVariable r.2
    let st := emitBytes OP_CLASS r.1 st
    let st := defineVariable r.1 st
    let st := { st with classes := false :: st.classes }
    let m := matchTok .LESS st
    let st :=
      if m.1 then
        let st := consume .IDENTIFIER "Expect superclass name." m.2
        let st := variableRule fuel false st
        let st :=
          if identifiersEqual className st.prev.lexeme then
            errorP "A class can't inherit from itself" st
          else st
        let st := beginScope st
        let st := addLocal "super" st
        let st := defineVariable 0 st
        let st := namedVariable fuel className false st
        let st := emitByte OP_INHERIT st
        { st with classes := true :: st.classes.tail }
      else m.2
    let st := namedVariable fuel className false st
    let st := consume .LEFT_BRACE "Expect '\x7b' before class body." st
    let st := methodLoop fuel st
    let st := consume .RIGHT_BRACE "Expect '\x7d' after class body." st
    let st := emitByte OP_POP st
    let hasSuperclass := st.classes.headD false
    let st := if hasSuperclass then endScope st else st
    { st with classes := st.classes.tail }
  termination_by structural fuel => fuel

/-- funDeclaration: the name (usable inside its own body, so marked
initialised at once), the function, the binding. -/
def funDeclaration : Nat → St → St
  | 0, st => st
  | fuel + 1, st =>
    let r := parseVariable "Expect function name" st
    let st := markInitialized r.2
    let st := functionRule fuel .FUNCTION st
    defineVariable r.1 st

/-- varDeclaration: the name, the initialiser expression or NIL, the
semicolon, the binding. -/
def varDeclaration : Nat → St → St
  | 0, st => st
  | fuel + 1, st =>
    let r := parseVariable "Expect variable name." st
    let m := matchTok .EQUAL r.2
    let st := if m.1 then expression fuel m.2 else emitByte OP_NIL m.2
    let st := consume .SEMICOLON "Expect ';' after variable declaration." st
    defineVariable r.1 st

/-- expressionStatement: expression, semicolon, POP. -/
def expressionStatement : Nat → St → St
  | 0, st => st
  | fuel + 1, st =>
    let st := expression fuel st
    let st := consume .SEMICOLON "Expect ';' after expression." st
    emitByte OP_POP st

/-- forStatement: scoped initialiser (none, var or expression statement),
optional condition with exit jump, optional increment run after the body
via a jump juggle, the body, the backward loop, the exit patch. -/
def forStatement : Nat → St → St
  | 0, st => st
  | fuel + 1, st =>
    let st := beginScope st
    let st := consume .LEFT_PAREN "Expect '(' after 'for'." st
    let m := matchTok .SEMICOLON st
    let st :=
      if m.1 then m.2
      else
        let mv := matchTok .VAR m.2
        if mv.1 then varDeclaration fuel mv.2
        else expressionStatement fuel mv.2
    let loopStart := st.curFrame.chunk.code.length
    let ms := matchTok .SEMICOLON st
    let c :=
      if ms.1 then ((-1 : Int), loopStart, ms.2)
      else
        let st := expression fuel ms.2
        let st := consume .SEMICOLON "Expect ';' after loop condition." st
        let ej := emitJump OP_JUMP_IF_FALSE st
        (Int.ofNat ej.1, loopStart, emitByte OP_POP ej.2)
    let exitJump := c.1
    let mp := matchTok .RIGHT_PAREN c.2.2
    let l :=
      if mp.1 then (c.2.1, mp.2)
      else
        let bj := emitJump OP_JUMP mp.2
        let incrementStart := bj.2.curFrame.chunk.code.length
        let st := expression fuel bj.2
        let st := emitByte OP_POP st
        let st := consume .RIGHT_PAREN "Expect ')' after for clause." st
        let st := emitLoop c.2.1 st
        (incrementStart, patchJump bj.1 st)
    let st := statement fuel l.2
    let st := emitLoop l.1 st
    let st :=
      if exitJump ≠ -1 then emitByte OP_POP (patchJump exitJump.toNat st)
      else st
    endScope st
  termination_by structural fuel => fuel

/-- ifStatement: condition, JUMP_IF_FALSE over then, POP on both paths,
optional else, both jumps patched. -/
def ifStatement : Nat → St → St
  | 0, st => st
  | fuel + 1, st =>
    let st := consume .LEFT_PAREN "Expect '(' after 'if'." st
    let st := expression fuel st
    let st := consume .RIGHT_PAREN "Expect ')' after condiftion." st
    let tj := emitJump OP_JUMP_IF_FALSE st
    let st := emitByte OP_POP tj.2
    let st := statement fuel st
    let ej := emitJump OP_JUMP st
    let st := patchJump tj.1 ej.2
    let st := emitByte OP_POP st
    let m := matchTok .ELSE st
    let st := if m.1 then statement fuel m.2 else m.2
    patchJump ej.1 st
  termination_by structural fuel => fuel

/-- printStatement: expression, semicolon, PRINT. -/
def printStatement : Nat → St → St
  | 0, st => st
  | fuel + 1, st =>
    let st := expression fuel st
    let st := consume .SEMICOLON "Expect ';' after value." st
    emitByte OP_PRINT st

/-- returnStatement: diagnose at top level; a bare semicolon emits the
implicit return, else (diagnosing a value in an initializer) the value and
RETURN. -/
def returnStatement : Nat → St → St
  | 0, st => st
  | fuel + 1, st =>
    let st :=
      if st.curFrame.ftype = .SCRIPT then
        errorP "can't return from top-level code." st
      else st
    let m := matchTok .SEMICOLON st
    if m.1 then emitReturn m.2
    else
      let st :=
        if m.2.curFrame.ftype = .INITIALIZER then
          errorP "Can't return a value from an initializer." m.2
        else m.2
      let st := expression fuel st
      let st := consume .SEMICOLON "Expect ';' after return value." st
      emitByte OP_RETURN st

/-- whileStatement: loop start before the condition, exit jump, POP, body,
backward loop, patch, POP. -/
def whileStatement : Nat → St → St
  | 0, st => st
  | fuel + 1, st =>
    let loopStart := st.curFrame.chunk.code.length
    let st := consume .LEFT_PAREN "Expect '(' after 'while'." st
    let st := expression fuel st
    let st := consume .RIGHT_PAREN "Expect ')' after 'while' condition." st
    let ej := emitJump OP_JUMP_IF_FALSE st
    let st := emitByte OP_POP ej.2
    let st := statement fuel st
    let st := emitLoop loopStart st
    let st := patchJump ej.1 st
    emitByte OP_POP st

/-- declaration: class, var or fun declaration, else a statement;
synchronize afterwards while panicking. -/
def declaration : Nat → St → St
  | 0, st => st
  | fuel + 1, st =>
    let mc := matchTok .CLASS st
    let st :=
      if mc.1 then classDeclaration fuel mc.2
      else
        let mv := matchTok .VAR mc.2
        if mv.1 then varDeclaration fuel mv.2
        else
          let mf := matchTok .FUN mv.2
          if mf.1 then funDeclaration fuel mf.2
          else statement fuel mf.2
    if st.panicMode then synchronize st else st
  termination_by structural fuel => fuel

/-- statement: print, block (in its own scope), if, return, while, for or
an expression statement. -/
def statement : Nat → St → St
  | 0, st => st
  | fuel + 1, st =>
    let mp := matchTok .PRINT st
    if mp.1 then printStatement fuel mp.2
    else
      let mb := matchTok .LEFT_BRACE mp.2
      if mb.1 then endScope (block fuel (beginScope mb.2))
      else
        let mi := matchTok .IF mb.2
        if mi.1 then ifStatement fuel mi.2
        else
          let mr := matchTok .RETURN mi.2
          if mr.1 then returnStatement fuel mr.2
          else
            let mw := matchTok .WHILE mr.2
            if mw.1 then whileStatement fuel mw.2
            else
              let mf := matchTok .FOR mw.2
              if mf.1 then forStatement fuel mf.2
              else expressionStatement fuel mf.2

  termination_by structural fuel => fuel
end

/-- compile's top-level declaration loop: while no EOF is matched. -/
def compileLoop : Nat → St → St
  | 0, st => st
  | fuel + 1, st =>
    let m := matchTok .EOF st
    if m.1 then m.2 else compileLoop fuel (declaration fuel m.2)

/-- The state after initScanner on a token stream: parser tokens are still
unset (they are junk in C until the first advance; EOF here). -/
def initSt (toks : List Token) : St :=
  { toks := toks, cur := eofToken, prev := eofToken, hadError := false,
    panicMode := false, msgs := [], frames := [], classes := [] }

/-- compile (compiler.c): script compiler, cleared flags, one advance, the
declaration loop, endCompiler; the function only on a clean parse.  The
final state is returned alongside so that diagnostics stay observable. -/
def compile (fuel : Nat) (toks : List Token) : Option ObjFunction × St :=
  let st := initSt toks
  let st := initCompiler .SCRIPT st
  let st := { st with hadError := false, panicMode := false }
  let st := advance st
  let st := compileLoop fuel st
  let r := endCompiler st
  (if r.2.2.hadError then none else some r.1, r.2.2)

/-- argLoop extended with the exact number of iterations, that is the number
of argument expressions parsed: the state transitions are the same
computation, only the iteration count is returned alongside the wrapping
uint8_t counter.  A specification-side companion used to state that the
emitted count byte is the parsed count modulo 256. -/
def argLoopPair : Nat → Nat → St → Nat × Nat × St
  | 0, argCount, st => (argCount, 0, st)
  | fuel + 1, argCount, st =>
    let st := expression fuel st
    let st :=
      if argCount = 255 then errorP "Can't have more than 255 arguments." st
      else st
    let argCount := (argCount + 1) % 256
    let m := matchTok .COMMA st
    if m.1 then
      let r := argLoopPair fuel argCount m.2
      (r.1, r.2.1 + 1, r.2.2)
    else (argCount, 1, m.2)

/-- Identifier, number and keyword/punctuation tokens for the concrete
programs of the claims (all on line 1). -/
def idT (s : String) : Token := ⟨.IDENTIFIER, s, 1⟩

def numT (s : String) : Token := ⟨.NUMBER, s, 1⟩

def kw (t : TokenType) : Token := ⟨t, "", 1⟩

/-- Token stream of the program `var a = 3; print a;` of the spec's
scenario 2. -/
def c4toks : List Token :=
  [kw .VAR, idT "a", kw .EQUAL, numT "3", kw .SEMICOLON,
   kw .PRINT, idT "a", kw .SEMICOLON]

/-- Token stream of the program `a + b = c;` of the spec's scenario 8. -/
def c7toks : List Token :=
  [idT "a", kw .PLUS, idT "b", kw .EQUAL, idT "c", kw .SEMICOLON]

/-- Token stream of `{ var a = 1; { var a = a; } }` (scenario 10: a local
read in its own initializer). -/
def c8toks : List Token :=
  [kw .LEFT_BRACE, kw .VAR, idT "a", kw .EQUAL, numT "1", kw .SEMICOLON,
   kw .LEFT_BRACE, kw .VAR, idT "a", kw .EQUAL, idT "a", kw .SEMICOLON,
   kw .RIGHT_BRACE, kw .RIGHT_BRACE]

/-- The compilation state of the scenario-10 program just before
endCompiler (the script chunk is still the current frame's). -/
def c8st : St :=
  compileLoop 100
    (advance { initCompiler .SCRIPT (initSt c8toks) with
               hadError := false, panicMode := false })

/-- A minimal one-frame state (a script compiler over an empty chunk). -/
def scriptSt : St := { initSt [] with frames := [defaultFrame] }

/-- A state whose current chunk holds 65539 code bytes: patching a jump at
offset 1 there computes the distance 65536. -/
def bigChunkSt : St :=
  { initSt [] with
    frames := [{ defaultFrame with
                 chunk := .mk (List.replicate 65539 0) (List.replicate 65539 0) [] }] }

/-- A state whose current chunk holds 10 code bytes (a small patchJump
instance). -/
def smallChunkSt : St :=
  { initSt [] with
    frames := [{ defaultFrame with
                 chunk := .mk (List.replicate 10 0) (List.replicate 10 0) [] }] }

/-- A state about to parse `= ;` with a number literal just consumed: the
leftover = after parsePrecendence's infix loop. -/
def leftoverEqSt : St :=
  { initSt [kw .EQUAL, kw .SEMICOLON] with cur := numT "1", frames := [defaultFrame] }

/-- A frame whose top local is declared but not initialised (depth -1). -/
def uninitSt : St :=
  { initSt [] with
    frames := [{ defaultFrame with
                 locals := [⟨"this", 0, false⟩, ⟨"a", -1, false⟩] }] }

/-- An enclosing function frame owning the local x at slot 1 (depth 1). -/
def outerFrame : Frame :=
  { defaultFrame with
    ftype := .FUNCTION,
    locals := [⟨"", 0, false⟩, ⟨"x", 1, false⟩], scopeDepth := 1 }

/-- A nested function frame with only its reserved slot. -/
def innerFrame : Frame :=
  { defaultFrame with
    ftype := .FUNCTION,
    locals := [⟨"", 0, false⟩], scopeDepth := 1 }

/-- A two-frame chain: innerFrame compiling inside outerFrame. -/
def chainSt : St := { initSt [] with frames := [innerFrame, outerFrame] }

/-- A state whose current chunk already holds 256 constants. -/
def fullPoolSt : St :=
  { initSt [] with
    frames := [{ defaultFrame with
                 chunk := .mk [] [] (List.replicate 256 (.vnum 0)) }] }

/-- A frame already holding 256 upvalue descriptors (all {0, true}). -/
def fullUpvalFrame : Frame :=
  { defaultFrame with upvalues := List.replicate 256 ⟨0, true⟩ }

/-- A state whose current token is a bare semicolon (a bare return), inside
a non-initializer function. -/
def bareRetSt : St :=
  { initSt [] with
    cur := kw .SEMICOLON,
    frames := [{ defaultFrame with ftype := .FUNCTION }] }

/-- The bare-semicolon state inside an initializer. -/
def bareRetInitSt : St :=
  { initSt [] with
    cur := kw .SEMICOLON,
    frames := [{ defaultFrame with ftype := .INITIALIZER }] }

/-- A state in the middle of an argument list `true, true)`: the first
argument is the current token, one comma-separated argument follows. -/
def twoArgSt : St :=
  { initSt [kw .COMMA, kw .TRUE, kw .RIGHT_PAREN] with
    cur := kw .TRUE, frames := [defaultFrame] }

/-- Constants as comparable shapes (numbers and strings; none for function
objects), for stating a concrete pool's contents decidably. -/
def constShape : Value → Option (Int ⊕ String)
  | .vnum n => some (.inl n)
  | .vstr s => some (.inr s)
  | .vfun _ => none

/-- The code and line arrays of a chunk have equal length. -/
def lockstep (c : Chunk) : Prop := c.code.length = c.lines.length

/-- Every frame of a compiler chain has a lockstep chunk. -/
def FramesOK (l : List Frame) : Prop := ∀ f ∈ l, lockstep f.chunk

/-- Every frame of the state's compiler chain has a lockstep chunk: the
observable invariant of claim C5, over any point of a compilation. -/
def ChunkOK (st : St) : Prop := FramesOK st.frames

/-!  Helper lemmas about the primitive state operations, shared by the
claim theorems below. -/

theorem writeChunk_code (ch : Chunk) (b l : Nat) :
    (writeChunk ch b l).code = ch.code ++ [b] := by
  cases ch <;> rfl

theorem writeChunk_lines (ch : Chunk) (b l : Nat) :
    (writeChunk ch b l).lines = ch.lines ++ [l] := by
  cases ch <;> rfl

theorem writeChunk_constants (ch : Chunk) (b l : Nat) :
    (writeChunk ch b l).constants = ch.constants := by
  cases ch <;> rfl

theorem setByte_code (ch : Chunk) (i b : Nat) :
    (Chunk.setByte ch i b).code = ch.code.set i b := by
  cases ch <;> rfl

theorem setByte_lines (ch : Chunk) (i b : Nat) :
    (Chunk.setByte ch i b).lines = ch.lines := by
  cases ch <;> rfl

theorem curFrame_setCurFrame (st : St) (f : Frame) :
    (st.setCurFrame f).curFrame = f := by
  simp [St.setCurFrame, St.curFrame]

theorem errorAt_frames (m : String) (st : St) :
    (errorAt m st).frames = st.frames := by
  unfold errorAt; split <;> rfl

theorem errorAt_cur (m : String) (st : St) : (errorAt m st).cur = st.cur := by
  unfold errorAt; split <;> rfl

theorem errorAt_prev (m : String) (st : St) : (errorAt m st).prev = st.prev := by
  unfold errorAt; split <;> rfl

theorem errorAt_toks (m : String) (st : St) : (errorAt m st).toks = st.toks := by
  unfold errorAt; split <;> rfl

theorem errorAt_msgs_of (m : String) (st : St) (h : st.panicMode = false) :
    (errorAt m st).msgs = st.msgs ++ [m] := by
  simp [errorAt, h]

theorem errorAt_hadError_of (m : String) (st : St) (h : st.panicMode = false) :
    (errorAt m st).hadError = true := by
  simp [errorAt, h]

theorem errorP_frames (m : String) (st : St) :
    (errorP m st).frames = st.frames := errorAt_frames m st

theorem errorP_curFrame (m : String) (st : St) :
    (errorP m st).curFrame = st.curFrame := by
  simp [St.curFrame, errorP_frames]

theorem skipErrors_frames (ts : List Token) (st : St) :
    (skipErrors ts st).frames = st.frames := by
  induction ts generalizing st with
  | nil => rfl
  | cons t ts ih =>
    unfold skipErrors
    split
    · rw [ih]
      unfold errorAtCurrent
      rw [errorAt_frames]
    · rfl

theorem advance_frames (st : St) : (advance st).frames = st.frames := by
  unfold advance; rw [skipErrors_frames]

theorem advance_curFrame (st : St) : (advance st).curFrame = st.curFrame := by
  simp [St.curFrame, advance_frames]

theorem consume_frames (t : TokenType) (m : String) (st : St) :
    (consume t m st).frames = st.frames := by
  unfold consume; split
  · exact advance_frames st
  · exact errorAt_frames m st

theorem consume_curFrame (t : TokenType) (m : String) (st : St) :
    (consume t m st).curFrame = st.curFrame := by
  simp [St.curFrame, consume_frames]

theorem matchTok_snd_frames (t : TokenType) (st : St) :
    (matchTok t st).2.frames = st.frames := by
  unfold matchTok; split
  · exact advance_frames st
  · rfl

theorem emitByte_spec (b : Nat) (st : St) :
    emitByte b st =
      st.setCurFrame
        { st.curFrame with chunk := writeChunk st.curFrame.chunk b st.prev.line } := rfl

theorem emitByte_code (b : Nat) (st : St) :
    (emitByte b st).curFrame.chunk.code = st.curFrame.chunk.code ++ [b] := by
  rw [emitByte_spec, curFrame_setCurFrame, writeChunk_code]

theorem emitByte_constants (b : Nat) (st : St) :
    (emitByte b st).curFrame.chunk.constants = st.curFrame.chunk.constants := by
  rw [emitByte_spec, curFrame_setCurFrame, writeChunk_constants]

theorem emitByte_ftype (b : Nat) (st : St) :
    (emitByte b st).curFrame.ftype = st.curFrame.ftype := by
  rw [emitByte_spec, curFrame_setCurFrame]

theorem emitByte_msgs (b : Nat) (st : St) : (emitByte b st).msgs = st.msgs := rfl

theorem emitByte_hadError (b : Nat) (st : St) :
    (emitByte b st).hadError = st.hadError := rfl

theorem emitBytes_code (b1 b2 : Nat) (st : St) :
    (emitBytes b1 b2 st).curFrame.chunk.code =
      st.curFrame.chunk.code ++ [b1, b2] := by
  unfold emitBytes
  rw [emitByte_code, emitByte_code, List.append_assoc]
  rfl

theorem emitReturn_code (st : St) :
    (emitReturn st).curFrame.chunk.code =
      st.curFrame.chunk.code ++
        (if st.curFrame.ftype = .INITIALIZER then [OP_GET_LOCAL, 0, OP_RETURN]
         else [OP_NIL, OP_RETURN]) := by
  unfold emitReturn
  split
  · rw [emitByte_code, emitBytes_code, List.append_assoc]; rfl
  · rw [emitByte_code, emitByte_code, List.append_assoc]; rfl

theorem addConstant_fst_lines (ch : Chunk) (v : Value) :
    (addConstant ch v).1.lines = ch.lines := by
  cases ch <;> rfl

theorem lockstep_initChunk : lockstep initChunk := rfl

theorem lockstep_writeChunk {c : Chunk} (b l : Nat) (h : lockstep c) :
    lockstep (writeChunk c b l) := by
  unfold lockstep at *
  rw [writeChunk_code, writeChunk_lines]
  simp [h]

theorem lockstep_setByte {c : Chunk} (i b : Nat) (h : lockstep c) :
    lockstep (Chunk.setByte c i b) := by
  unfold lockstep at *
  rw [setByte_code, setByte_lines]
  simp [h]

theorem lockstep_addConstant {c : Chunk} (v : Value) (h : lockstep c) :
    lockstep (addConstant c v).1 := by
  cases c with
  | mk a b k => exact h

theorem ChunkOK_congr {st st2 : St} (hf : st2.frames = st.frames)
    (h : ChunkOK st) : ChunkOK st2 := by
  intro f hm
  rw [hf] at hm
  exact h f hm

theorem ChunkOK.curFrameOK {st : St} (h : ChunkOK st) :
    lockstep st.curFrame.chunk := by
  unfold St.curFrame
  cases hs : st.frames with
  | nil => exact lockstep_initChunk
  | cons f l => exact h f (by rw [hs]; exact List.mem_cons_self _ _)

theorem chunkOK_setCurFrame {st : St} {f : Frame} (h : ChunkOK st)
    (hf : lockstep f.chunk) : ChunkOK (st.setCurFrame f) := by
  intro g hm
  rcases List.mem_cons.mp hm with rfl | hm2
  · exact hf
  · exact h g (List.mem_of_mem_tail hm2)

theorem chunkOK_modFrame {st : St} {g : Frame → Frame}
    (hg : ∀ f, lockstep f.chunk → lockstep (g f).chunk) (h : ChunkOK st) :
    ChunkOK (modFrame g st) :=
  chunkOK_setCurFrame h (hg _ h.curFrameOK)

theorem chunkOK_errorAt (m : String) {st : St} (h : ChunkOK st) :
    ChunkOK (errorAt m st) := ChunkOK_congr (errorAt_frames m st) h

theorem chunkOK_errorP (m : String) {st : St} (h : ChunkOK st) :
    ChunkOK (errorP m st) := chunkOK_errorAt m h

theorem chunkOK_advance {st : St} (h : ChunkOK st) : ChunkOK (advance st) :=
  ChunkOK_congr (advance_frames st) h

theorem chunkOK_consume (t : TokenType) (m : String) {st : St} (h : ChunkOK st) :
    ChunkOK (consume t m st) := ChunkOK_congr (consume_frames t m st) h

theorem chunkOK_matchTok (t : TokenType) {st : St} (h : ChunkOK st) :
    ChunkOK (matchTok t st).2 := ChunkOK_congr (matchTok_snd_frames t st) h

theorem chunkOK_emitByte (b : Nat) {st : St} (h : ChunkOK st) :
    ChunkOK (emitByte b st) := by
  rw [emitByte_spec]
  exact chunkOK_setCurFrame h (lockstep_writeChunk _ _ h.curFrameOK)

theorem chunkOK_emitBytes (b1 b2 : Nat) {st : St} (h : ChunkOK st) :
    ChunkOK (emitBytes b1 b2 st) := chunkOK_emitByte _ (chunkOK_emitByte _ h)

theorem chunkOK_emitJump (i : Nat) {st : St} (h : ChunkOK st) :
    ChunkOK (emitJump i st).2 :=
  chunkOK_emitByte _ (chunkOK_emitByte _ (chunkOK_emitByte _ h))

theorem chunkOK_emitLoop (l : Nat) {st : St} (h : ChunkOK st) :
    ChunkOK (emitLoop l st) := by
  unfold emitLoop
  apply chunkOK_emitByte
  apply chunkOK_emitByte
  split
  · exact chunkOK_errorP _ (chunkOK_emitByte _ h)
  · exact chunkOK_emitByte _ h

theorem chunkOK_emitReturn {st : St} (h : ChunkOK st) :
    ChunkOK (emitReturn st) := by
  unfold emitReturn
  apply chunkOK_emitByte
  split
  · exact chunkOK_emitBytes _ _ h
  · exact chunkOK_emitByte _ h

theorem chunkOK_makeConstant (v : Value) {st : St} (h : ChunkOK st) :
    ChunkOK (makeConstant v st).2 := by
  simp only [makeConstant]
  split
  · exact chunkOK_errorP _
      (chunkOK_setCurFrame h (lockstep_addConstant _ h.curFrameOK))
  · exact chunkOK_setCurFrame h (lockstep_addConstant _ h.curFrameOK)

theorem chunkOK_emitConstant (v : Value) {st : St} (h : ChunkOK st) :
    ChunkOK (emitConstant v st) :=
  chunkOK_emitBytes _ _ (chunkOK_makeConstant v h)

theorem chunkOK_identifierConstant (n : String) {st : St} (h : ChunkOK st) :
    ChunkOK (identifierConstant n st).2 := chunkOK_makeConstant _ h

theorem chunkOK_patchJump (off : Nat) {st : St} (h : ChunkOK st) :
    ChunkOK (patchJump off st) := by
  unfold patchJump
  apply chunkOK_modFrame
  · intro f hf
    exact lockstep_setByte _ _ (lockstep_setByte _ _ hf)
  · split
    · exact chunkOK_errorP _ h
    · exact h

theorem chunkOK_initCompiler (ft : FunctionType) {st : St} (h : ChunkOK st) :
    ChunkOK (initCompiler ft st) := by
  intro g hm
  rcases List.mem_cons.mp hm with rfl | hm2
  · exact lockstep_initChunk
  · exact h g hm2

theorem chunkOK_endCompiler {st : St} (h : ChunkOK st) :
    ChunkOK (endCompiler st).2.2 := by
  intro g hm
  exact chunkOK_emitReturn h g (List.mem_of_mem_tail hm)

theorem lockstep_endCompiler_fn {st : St} (h : ChunkOK st) :
    lockstep (endCompiler st).1.chunk :=
  (chunkOK_emitReturn h).curFrameOK

theorem chunkOK_beginScope {st : St} (h : ChunkOK st) :
    ChunkOK (beginScope st) := chunkOK_modFrame (fun _ hf => hf) h

theorem chunkOK_popLocals (d : Int) :
    ∀ ls : List Local, ∀ st : St, ChunkOK st → ChunkOK (popLocals ls d st).2 := by
  intro ls
  induction ls with
  | nil => intro st h; exact h
  | cons l rest ih =>
    intro st h
    unfold popLocals
    split
    · split
      · exact ih _ (chunkOK_emitByte _ h)
      · exact ih _ (chunkOK_emitByte _ h)
    · exact h

theorem chunkOK_endScope {st : St} (h : ChunkOK st) : ChunkOK (endScope st) := by
  unfold endScope
  exact chunkOK_modFrame (fun _ hf => hf)
    (chunkOK_popLocals _ _ _ (chunkOK_modFrame (fun _ hf => hf) h))

theorem chunkOK_addLocal (n : String) {st : St} (h : ChunkOK st) :
    ChunkOK (addLocal n st) := by
  unfold addLocal
  split
  · exact chunkOK_errorP _ h
  · exact chunkOK_modFrame (fun _ hf => hf) h

theorem chunkOK_declareCheck (n : String) (d : Int) :
    ∀ ls : List Local, ∀ st : St, ChunkOK st → ChunkOK (declareCheck ls n d st) := by
  intro ls
  induction ls with
  | nil => intro st h; exact h
  | cons l rest ih =>
    intro st h
    unfold declareCheck
    split
    · exact h
    · split
      · exact ih _ (chunkOK_errorP _ h)
      · exact ih _ h

theorem chunkOK_declareVariable {st : St} (h : ChunkOK st) :
    ChunkOK (declareVariable st) := by
  unfold declareVariable
  split
  · exact h
  · exact chunkOK_addLocal _ (chunkOK_declareCheck _ _ _ _ h)

theorem chunkOK_parseVariable (m : String) {st : St} (h : ChunkOK st) :
    ChunkOK (parseVariable m st).2 := by
  simp only [parseVariable]
  split
  · exact chunkOK_declareVariable (chunkOK_consume _ _ h)
  · exact chunkOK_identifierConstant _ (chunkOK_declareVariable (chunkOK_consume _ _ h))

theorem chunkOK_markInitialized {st : St} (h : ChunkOK st) :
    ChunkOK (markInitialized st) := by
  unfold markInitialized
  split
  · exact h
  · exact chunkOK_modFrame (fun _ hf => hf) h

theorem chunkOK_defineVariable (g : Nat) {st : St} (h : ChunkOK st) :
    ChunkOK (defineVariable g st) := by
  unfold defineVariable
  split
  · exact chunkOK_markInitialized h
  · exact chunkOK_emitBytes _ _ h

theorem chunkOK_resolveLocalAux (n : String) :
    ∀ items : List (Nat × Local), ∀ st : St, ChunkOK st →
      ChunkOK (resolveLocalAux items n st).2 := by
  intro items
  induction items with
  | nil => intro st h; exact h
  | cons p rest ih =>
    intro st h
    obtain ⟨j, q⟩ := p
    unfold resolveLocalAux
    split
    · split
      · exact chunkOK_errorP _ h
      · exact h
    · exact ih _ h

theorem chunkOK_resolveLocal (f : Frame) (n : String) {st : St} (h : ChunkOK st) :
    ChunkOK (resolveLocal f n st).2 := chunkOK_resolveLocalAux _ _ _ h

theorem chunkOK_addUpvalue (f : Frame) (i : Nat) (b : Bool) {st : St}
    (h : ChunkOK st) : ChunkOK (addUpvalue f i b st).2.2 := by
  unfold addUpvalue
  split
  · exact h
  · split
    · exact chunkOK_errorP _ h
    · exact h

theorem addUpvalue_frame_chunk (f : Frame) (i : Nat) (b : Bool) (st : St) :
    (addUpvalue f i b st).2.1.chunk = f.chunk := by
  unfold addUpvalue
  split
  · rfl
  · split
    · rfl
    · rfl

theorem framesOK_resolveUpvalue (n : String) :
    ∀ frames : List Frame, ∀ st : St, FramesOK frames → ChunkOK st →
      FramesOK (resolveUpvalue frames n st).2.1 ∧
        ChunkOK (resolveUpvalue frames n st).2.2 := by
  intro frames
  induction frames with
  | nil => intro st _ h; exact ⟨fun f hm => absurd hm (List.not_mem_nil f), h⟩
  | cons f rest ih =>
    intro st hframes h
    match rest with
    | [] =>
      exact ⟨hframes, h⟩
    | e :: rest2 =>
      have hOKrl := chunkOK_resolveLocal e n h
      have hrest : FramesOK (e :: rest2) := fun g hm =>
        hframes g (List.mem_cons_of_mem _ hm)
      have hf : lockstep f.chunk := hframes f (List.mem_cons_self _ _)
      have he : lockstep e.chunk := hrest e (List.mem_cons_self _ _)
      simp only [resolveUpvalue]
      split
      · refine ⟨?_, chunkOK_addUpvalue _ _ _ hOKrl⟩
        intro g hm
        rcases List.mem_cons.mp hm with rfl | hm2
        · rw [addUpvalue_frame_chunk]; exact hf
        · rcases List.mem_cons.mp hm2 with rfl | hm3
          · exact he
          · exact hrest g (List.mem_cons_of_mem _ hm3)
      · have hrec := ih _ hrest hOKrl
        split
        · rcases hchain :
            (resolveUpvalue (e :: rest2) n (resolveLocal e n st).2).2.1 with
            _ | ⟨e2, rest3⟩
          · simp only [hchain]
            refine ⟨?_, hrec.2⟩
            intro g hm
            rcases List.mem_cons.mp hm with rfl | hm2
            · exact hf
            · exact absurd hm2 (List.not_mem_nil g)
          · simp only [hchain]
            refine ⟨?_, chunkOK_addUpvalue _ _ _ hrec.2⟩
            intro g hm
            rcases List.mem_cons.mp hm with rfl | hm2
            · rw [addUpvalue_frame_chunk]; exact hf
            · have hmem : g ∈
                  (resolveUpvalue (e :: rest2) n (resolveLocal e n st).2).2.1 := by
                rw [hchain]; exact hm2
              exact hrec.1 g hmem
        · refine ⟨?_, hrec.2⟩
          intro g hm
          rcases List.mem_cons.mp hm with rfl | hm2
          · exact hf
          · exact hrec.1 g hm2

theorem chunkOK_classes (c : List Bool) {st : St} (h : ChunkOK st) :
    ChunkOK { st with classes := c } := h

theorem chunkOK_numberRule {st : St} (h : ChunkOK st) :
    ChunkOK (numberRule st) := chunkOK_emitConstant _ h

theorem chunkOK_stringRule {st : St} (h : ChunkOK st) :
    ChunkOK (stringRule st) := chunkOK_emitConstant _ h

theorem chunkOK_literalRule {st : St} (h : ChunkOK st) :
    ChunkOK (literalRule st) := by
  unfold literalRule
  split
  · exact chunkOK_emitByte _ h
  · exact chunkOK_emitByte _ h
  · exact chunkOK_emitByte _ h
  · exact h

theorem chunkOK_syncLoop : ∀ fuel : Nat, ∀ st : St, ChunkOK st →
    ChunkOK (syncLoop fuel st) := by
  intro fuel
  induction fuel with
  | zero => intro st h; exact h
  | succ n ih =>
    intro st h
    unfold syncLoop
    split
    · exact h
    · split
      · exact h
      · split
        all_goals first
          | exact h
          | exact ih _ (chunkOK_advance h)

theorem chunkOK_synchronize {st : St} (h : ChunkOK st) :
    ChunkOK (synchronize st) :=
  chunkOK_syncLoop _ _ (ChunkOK_congr rfl h)

theorem chunkOK_bumpArity {st : St} (h : ChunkOK st) :
    ChunkOK (modFrame (fun f => { f with arity := f.arity + 1 }) st) :=
  chunkOK_modFrame (fun _ hf => hf) h

theorem chunkOK_paramLoop : ∀ fuel : Nat, ∀ st : St, ChunkOK st →
    ChunkOK (paramLoop fuel st) := by
  intro fuel
  induction fuel with
  | zero => intro st h; exact h
  | succ n ih =>
    intro st h
    simp only [paramLoop]
    repeat' split
    all_goals
      repeat first
        | assumption
        | apply ih
        | apply chunkOK_matchTok
        | apply chunkOK_defineVariable
        | apply chunkOK_parseVariable
        | apply chunkOK_errorAt
        | apply chunkOK_bumpArity

theorem chunkOK_emitUpvalTrailer : ∀ us : List Upvalue, ∀ st : St, ChunkOK st →
    ChunkOK (emitUpvalTrailer us st) := by
  intro us
  induction us with
  | nil => intro st h; exact h
  | cons u rest ih =>
    intro st h
    exact ih _ (chunkOK_emitByte _ (chunkOK_emitByte _ h))

section EngineInvariant

attribute [local irreducible] advance consume matchTok check errorAt errorP
  errorAtCurrent skipErrors emitByte emitBytes emitJump emitLoop emitReturn
  makeConstant emitConstant patchJump initCompiler endCompiler beginScope
  endScope popLocals identifierConstant addLocal declareVariable parseVariable
  markInitialized defineVariable resolveLocal resolveLocalAux resolveUpvalue
  addUpvalue markCapturedAt findUpvalue synchronize syncLoop paramLoop
  emitUpvalTrailer numberRule stringRule literalRule modFrame St.curFrame
  St.setCurFrame writeChunk addConstant Chunk.setByte declareCheck
  setLastDepth

set_option maxHeartbeats 4000000 in
set_option maxRecDepth 8000 in
/-- Every engine function of the fueled mutual block preserves the lockstep
invariant of every frame's chunk: the chunk invariant holds at every
observable point a compilation reaches. -/
theorem engine_chunkOK : ∀ fuel : Nat,
    (∀ p : Nat, ∀ st : St, ChunkOK st → ChunkOK (parsePrecendence fuel p st)) ∧
    (∀ p : Nat, ∀ c : Bool, ∀ st : St, ChunkOK st → ChunkOK (infixLoop fuel p c st)) ∧
    (∀ f : PreFn, ∀ c : Bool, ∀ st : St, ChunkOK st → ChunkOK (runPre fuel f c st)) ∧
    (∀ i : InFn, ∀ c : Bool, ∀ st : St, ChunkOK st → ChunkOK (runIn fuel i c st)) ∧
    (∀ c : Bool, ∀ st : St, ChunkOK st → ChunkOK (grouping fuel c st)) ∧
    (∀ c : Bool, ∀ st : St, ChunkOK st → ChunkOK (unary fuel c st)) ∧
    (∀ c : Bool, ∀ st : St, ChunkOK st → ChunkOK (binary fuel c st)) ∧
    (∀ c : Bool, ∀ st : St, ChunkOK st → ChunkOK (call fuel c st)) ∧
    (∀ c : Bool, ∀ st : St, ChunkOK st → ChunkOK (dot fuel c st)) ∧
    (∀ nm : Nat, ∀ st : St, ChunkOK st → ChunkOK (dotTail fuel nm st)) ∧
    (∀ c : Bool, ∀ st : St, ChunkOK st → ChunkOK (andRule fuel c st)) ∧
    (∀ c : Bool, ∀ st : St, ChunkOK st → ChunkOK (orRule fuel c st)) ∧
    (∀ c : Bool, ∀ st : St, ChunkOK st → ChunkOK (variableRule fuel c st)) ∧
    (∀ nm : String, ∀ c : Bool, ∀ st : St, ChunkOK st →
       ChunkOK (namedVariable fuel nm c st)) ∧
    (∀ c : Bool, ∀ st : St, ChunkOK st → ChunkOK (superRule fuel c st)) ∧
    (∀ c : Bool, ∀ st : St, ChunkOK st → ChunkOK (thisRule fuel c st)) ∧
    (∀ st : St, ChunkOK st → ChunkOK (argumentList fuel st).2) ∧
    (∀ c : Nat, ∀ st : St, ChunkOK st → ChunkOK (argLoop fuel c st).2) ∧
    (∀ st : St, ChunkOK st → ChunkOK (expression fuel st)) ∧
    (∀ st : St, ChunkOK st → ChunkOK (block fuel st)) ∧
    (∀ ft : FunctionType, ∀ st : St, ChunkOK st → ChunkOK (functionRule fuel ft st)) ∧
    (∀ st : St, ChunkOK st → ChunkOK (method fuel st)) ∧
    (∀ st : St, ChunkOK st → ChunkOK (methodLoop fuel st)) ∧
    (∀ st : St, ChunkOK st → ChunkOK (classDeclaration fuel st)) ∧
    (∀ st : St, ChunkOK st → ChunkOK (funDeclaration fuel st)) ∧
    (∀ st : St, ChunkOK st → ChunkOK (varDeclaration fuel st)) ∧
    (∀ st : St, ChunkOK st → ChunkOK (expressionStatement fuel st)) ∧
    (∀ st : St, ChunkOK st → ChunkOK (forStatement fuel st)) ∧
    (∀ st : St, ChunkOK st → ChunkOK (ifStatement fuel st)) ∧
    (∀ st : St, ChunkOK st → ChunkOK (printStatement fuel st)) ∧
    (∀ st : St, ChunkOK st → ChunkOK (returnStatement fuel st)) ∧
    (∀ st : St, ChunkOK st → ChunkOK (whileStatement fuel st)) ∧
    (∀ st : St, ChunkOK st → ChunkOK (declaration fuel st)) ∧
    (∀ st : St, ChunkOK st → ChunkOK (statement fuel st)) := by
  intro fuel
  induction fuel with
  | zero =>
    refine ⟨?_, ?_, ?_, ?_, ?_, ?_, ?_, ?_, ?_, ?_, ?_, ?_, ?_, ?_, ?_, ?_, ?_,
      ?_, ?_, ?_, ?_, ?_, ?_, ?_, ?_, ?_, ?_, ?_, ?_, ?_, ?_, ?_, ?_, ?_⟩
    all_goals intros
    all_goals assumption
  | succ n ih =>
    obtain ⟨ihPP, ihIL, ihRP, ihRI, ihGr, ihUn, ihBin, ihCall, ihDot, ihDT,
      ihAnd, ihOr, ihVar, ihNV, ihSup, ihThis, ihAL, ihALp, ihExpr, ihBlk,
      ihFn, ihMeth, ihML, ihCD, ihFD, ihVD, ihES, ihFor, ihIf, ihPr, ihRet,
      ihWh, ihDecl, ihStmt⟩ := ih
    refine ⟨?_, ?_, ?_, ?_, ?_, ?_, ?_, ?_, ?_, ?_, ?_, ?_, ?_, ?_, ?_, ?_, ?_,
      ?_, ?_, ?_, ?_, ?_, ?_, ?_, ?_, ?_, ?_, ?_, ?_, ?_, ?_, ?_, ?_, ?_⟩
    · -- parsePrecendence
      intro p st h
      simp only [parsePrecendence]
      split
      · exact chunkOK_errorP _ (chunkOK_advance h)
      · split
        · split
          · exact chunkOK_errorP _ (chunkOK_matchTok _
              (ihIL _ _ _ (ihRP _ _ _ (chunkOK_advance h))))
          · exact chunkOK_matchTok _ (ihIL _ _ _ (ihRP _ _ _ (chunkOK_advance h)))
        · exact ihIL _ _ _ (ihRP _ _ _ (chunkOK_advance h))
    · -- infixLoop
      intro p c st h
      simp only [infixLoop]
      split
      · split
        · exact chunkOK_advance h
        · exact ihIL _ _ _ (ihRI _ _ _ (chunkOK_advance h))
      · exact h
    · -- runPre
      intro f c st h
      simp only [runPre]
      split
      all_goals first
        | exact ihGr _ _ h
        | exact ihUn _ _ h
        | exact ihVar _ _ h
        | exact chunkOK_numberRule h
        | exact chunkOK_stringRule h
        | exact chunkOK_literalRule h
        | exact ihSup _ _ h
        | exact ihThis _ _ h
    · -- runIn
      intro i c st h
      simp only [runIn]
      split
      all_goals first
        | exact ihBin _ _ h
        | exact ihCall _ _ h
        | exact ihDot _ _ h
        | exact ihAnd _ _ h
        | exact ihOr _ _ h
    · -- grouping
      intro c st h
      simp only [grouping]
      exact chunkOK_consume _ _ (ihExpr _ h)
    · -- unary
      intro c st h
      simp only [unary]
      split
      all_goals first
        | exact chunkOK_emitByte _ (ihPP _ _ h)
        | exact ihPP _ _ h
    · -- binary
      intro c st h
      simp only [binary]
      split
      all_goals first
        | exact chunkOK_emitBytes _ _ (ihPP _ _ h)
        | exact chunkOK_emitByte _ (ihPP _ _ h)
        | exact ihPP _ _ h
    · -- call
      intro c st h
      simp only [call]
      exact chunkOK_emitBytes _ _ (ihAL _ h)
    · -- dot
      intro c st h
      simp only [dot]
      split
      · split
        · exact chunkOK_emitBytes _ _ (ihExpr _ (chunkOK_matchTok _
            (chunkOK_identifierConstant _ (chunkOK_consume _ _ h))))
        · exact ihDT _ _ (chunkOK_matchTok _
            (chunkOK_identifierConstant _ (chunkOK_consume _ _ h)))
      · exact ihDT _ _ (chunkOK_identifierConstant _ (chunkOK_consume _ _ h))
    · -- dotTail
      intro nm st h
      simp only [dotTail]
      split
      · exact chunkOK_emitByte _ (chunkOK_emitBytes _ _
          (ihAL _ (chunkOK_matchTok _ h)))
      · exact chunkOK_emitBytes _ _ h
    · -- andRule
      intro c st h
      simp only [andRule]
      exact chunkOK_patchJump _ (ihPP _ _ (chunkOK_emitByte _
        (chunkOK_emitJump _ h)))
    · -- orRule
      intro c st h
      simp only [orRule]
      exact chunkOK_patchJump _ (ihPP _ _ (chunkOK_emitByte _
        (chunkOK_patchJump _ (chunkOK_emitJump _ (chunkOK_emitJump _ h)))))
    · -- variableRule
      intro c st h
      simp only [variableRule]
      exact ihNV _ _ _ h
    · -- namedVariable
      intro nm c st h
      have hrl : ChunkOK (resolveLocal st.curFrame nm st).2 :=
        chunkOK_resolveLocal _ _ h
      have hru := framesOK_resolveUpvalue nm
        (resolveLocal st.curFrame nm st).2.frames
        (resolveLocal st.curFrame nm st).2 hrl hrl
      simp only [namedVariable]
      repeat' split
      all_goals first
        | exact chunkOK_emitBytes _ _ (ihExpr _ (chunkOK_matchTok _ hrl))
        | exact chunkOK_emitBytes _ _ (chunkOK_matchTok _ hrl)
        | exact chunkOK_emitBytes _ _ hrl
        | exact chunkOK_emitBytes _ _ (ihExpr _ (chunkOK_matchTok _ hru.1))
        | exact chunkOK_emitBytes _ _ (chunkOK_matchTok _ hru.1)
        | exact chunkOK_emitBytes _ _ hru.1
        | exact chunkOK_emitBytes _ _ (ihExpr _ (chunkOK_matchTok _
            (chunkOK_identifierConstant _ hru.1)))
        | exact chunkOK_emitBytes _ _ (chunkOK_matchTok _
            (chunkOK_identifierConstant _ hru.1))
        | exact chunkOK_emitBytes _ _ (chunkOK_identifierConstant _ hru.1)
    · -- superRule
      intro c st h
      simp only [superRule]
      repeat' split
      all_goals
        repeat first
          | apply chunkOK_emitByte
          | apply chunkOK_emitBytes
          | apply ihNV
          | apply ihAL
          | apply chunkOK_matchTok
          | apply chunkOK_identifierConstant
          | apply chunkOK_consume
          | apply chunkOK_errorP
          | exact h
    · -- thisRule
      intro c st h
      simp only [thisRule]
      split
      · exact chunkOK_errorP _ h
      · exact ihVar _ _ h
    · -- argumentList
      intro st h
      simp only [argumentList]
      split
      · exact chunkOK_consume _ _ h
      · exact chunkOK_consume _ _ (ihALp _ _ h)
    · -- argLoop
      intro c st h
      simp only [argLoop]
      repeat' split
      all_goals first
        | exact ihALp _ _ (chunkOK_matchTok _ (chunkOK_errorP _ (ihExpr _ h)))
        | exact ihALp _ _ (chunkOK_matchTok _ (ihExpr _ h))
        | exact chunkOK_matchTok _ (chunkOK_errorP _ (ihExpr _ h))
        | exact chunkOK_matchTok _ (ihExpr _ h)
    · -- expression
      intro st h
      simp only [expression]
      exact ihPP _ _ h
    · -- block
      intro st h
      simp only [block]
      split
      · exact ihBlk _ (ihDecl _ h)
      · exact chunkOK_consume _ _ h
    · -- functionRule
      intro ft st h
      simp only [functionRule]
      split
      · exact chunkOK_emitUpvalTrailer _ _ (chunkOK_emitBytes _ _
          (chunkOK_makeConstant _ (chunkOK_endCompiler (ihBlk _
            (chunkOK_consume _ _ (chunkOK_consume _ _ (chunkOK_paramLoop _ _
              (chunkOK_consume _ _ (chunkOK_beginScope
                (chunkOK_initCompiler _ h))))))))))
      · exact chunkOK_emitUpvalTrailer _ _ (chunkOK_emitBytes _ _
          (chunkOK_makeConstant _ (chunkOK_endCompiler (ihBlk _
            (chunkOK_consume _ _ (chunkOK_consume _ _
              (chunkOK_consume _ _ (chunkOK_beginScope
                (chunkOK_initCompiler _ h)))))))))
    · -- method
      intro st h
      simp only [method]
      exact chunkOK_emitBytes _ _ (ihFn _ _
        (chunkOK_identifierConstant _ (chunkOK_consume _ _ h)))
    · -- methodLoop
      intro st h
      simp only [methodLoop]
      split
      · exact ihML _ (ihMeth _ h)
      · exact h
    · -- classDeclaration
      intro st h
      simp only [classDeclaration]
      repeat' split
      all_goals
        repeat first
          | exact h
          | apply chunkOK_endScope
          | apply chunkOK_emitByte
          | apply chunkOK_consume
          | apply ihML
          | apply ihNV
          | apply chunkOK_defineVariable
          | apply chunkOK_addLocal
          | apply chunkOK_beginScope
          | apply chunkOK_errorP
          | apply ihVar
          | apply chunkOK_matchTok
          | apply chunkOK_emitBytes
          | apply chunkOK_declareVariable
          | apply chunkOK_identifierConstant
          | apply chunkOK_classes
    · -- funDeclaration
      intro st h
      simp only [funDeclaration]
      exact chunkOK_defineVariable _ (ihFn _ _
        (chunkOK_markInitialized (chunkOK_parseVariable _ h)))
    · -- varDeclaration
      intro st h
      simp only [varDeclaration]
      split
      · exact chunkOK_defineVariable _ (chunkOK_consume _ _ (ihExpr _
          (chunkOK_matchTok _ (chunkOK_parseVariable _ h))))
      · exact chunkOK_defineVariable _ (chunkOK_consume _ _ (chunkOK_emitByte _
          (chunkOK_matchTok _ (chunkOK_parseVariable _ h))))
    · -- expressionStatement
      intro st h
      simp only [expressionStatement]
      exact chunkOK_emitByte _ (chunkOK_consume _ _ (ihExpr _ h))
    · -- forStatement
      intro st h
      simp only [forStatement]
      repeat' split
      all_goals
        repeat first
          | apply chunkOK_endScope
          | apply chunkOK_emitByte
          | apply chunkOK_patchJump
          | apply chunkOK_emitLoop
          | apply ihStmt
          | apply ihExpr
          | apply ihVD
          | apply ihES
          | apply chunkOK_consume
          | apply chunkOK_matchTok
          | apply chunkOK_emitJump
          | apply chunkOK_beginScope
          | exact h
    · -- ifStatement
      intro st h
      simp only [ifStatement]
      repeat' split
      all_goals
        repeat first
          | apply chunkOK_patchJump
          | apply ihStmt
          | apply chunkOK_matchTok
          | apply chunkOK_emitByte
          | apply chunkOK_emitJump
          | apply chunkOK_consume
          | apply ihExpr
          | exact h
    · -- printStatement
      intro st h
      simp only [printStatement]
      exact chunkOK_emitByte _ (chunkOK_consume _ _ (ihExpr _ h))
    · -- returnStatement
      intro st h
      simp only [returnStatement]
      repeat' split
      all_goals
        repeat first
          | apply chunkOK_emitByte
          | apply chunkOK_consume
          | apply ihExpr
          | apply chunkOK_errorP
          | apply chunkOK_matchTok
          | apply chunkOK_emitReturn
          | exact h
    · -- whileStatement
      intro st h
      simp only [whileStatement]
      exact chunkOK_emitByte _ (chunkOK_patchJump _ (chunkOK_emitLoop _
        (ihStmt _ (chunkOK_emitByte _ (chunkOK_emitJump _
          (chunkOK_consume _ _ (ihExpr _ (chunkOK_consume _ _ h))))))))
    · -- declaration
      intro st h
      simp only [declaration]
      repeat' split
      all_goals first
        | exact chunkOK_synchronize (ihCD _ (chunkOK_matchTok _ h))
        | exact ihCD _ (chunkOK_matchTok _ h)
        | exact chunkOK_synchronize (ihVD _
            (chunkOK_matchTok _ (chunkOK_matchTok _ h)))
        | exact ihVD _ (chunkOK_matchTok _ (chunkOK_matchTok _ h))
        | exact chunkOK_synchronize (ihFD _ (chunkOK_matchTok _
            (chunkOK_matchTok _ (chunkOK_matchTok _ h))))
        | exact ihFD _ (chunkOK_matchTok _
            (chunkOK_matchTok _ (chunkOK_matchTok _ h)))
        | exact chunkOK_synchronize (ihStmt _ (chunkOK_matchTok _
            (chunkOK_matchTok _ (chunkOK_matchTok _ h))))
        | exact ihStmt _ (chunkOK_matchTok _
            (chunkOK_matchTok _ (chunkOK_matchTok _ h)))
    · -- statement
      intro st h
      simp only [statement]
      repeat' split
      all_goals first
        | exact ihPr _ (chunkOK_matchTok _ h)
        | exact chunkOK_endScope (ihBlk _ (chunkOK_beginScope
            (chunkOK_matchTok _ (chunkOK_matchTok _ h))))
        | exact ihIf _ (chunkOK_matchTok _
            (chunkOK_matchTok _ (chunkOK_matchTok _ h)))
        | exact ihRet _ (chunkOK_matchTok _ (chunkOK_matchTok _
            (chunkOK_matchTok _ (chunkOK_matchTok _ h))))
        | exact ihWh _ (chunkOK_matchTok _ (chunkOK_matchTok _
            (chunkOK_matchTok _ (chunkOK_matchTok _ (chunkOK_matchTok _ h)))))
        | exact ihFor _ (chunkOK_matchTok _ (chunkOK_matchTok _
            (chunkOK_matchTok _ (chunkOK_matchTok _ (chunkOK_matchTok _
              (chunkOK_matchTok _ h))))))
        | exact ihES _ (chunkOK_matchTok _ (chunkOK_matchTok _
            (chunkOK_matchTok _ (chunkOK_matchTok _ (chunkOK_matchTok _
              (chunkOK_matchTok _ h))))))

/-- compileLoop preserves the chunk invariant. -/
theorem chunkOK_compileLoop : ∀ fuel : Nat, ∀ st : St, ChunkOK st →
    ChunkOK (compileLoop fuel st) := by
  intro fuel
  induction fuel with
  | zero => intro st h; exact h
  | succ n ih =>
    intro st h
    simp only [compileLoop]
    split
    · exact chunkOK_matchTok _ h
    · exact ih _ ((engine_chunkOK n).2.2.2.2.2.2.2.2.2.2.2.2.2.2.2.2.2.2.2.2.2.2.2.2.2.2.2.2.2.2.2.2.1
        _ (chunkOK_matchTok _ h))

/-- compile keeps every chunk's code and line arrays in lockstep, for every
input and fuel: the final state's frames and the compiled function, when
one is produced, satisfy the invariant. -/
theorem chunkOK_compile (fuel : Nat) (toks : List Token) :
    ChunkOK (compile fuel toks).2 ∧
      ∀ f : ObjFunction, (compile fuel toks).1 = some f →
        f.chunk.code.length = f.chunk.lines.length := by
  have h0 : ChunkOK (initSt toks) := by
    intro f hm
    exact absurd hm (List.not_mem_nil f)
  have h1 : ChunkOK (advance
      { initCompiler .SCRIPT (initSt toks) with
        hadError := false, panicMode := false }) :=
    chunkOK_advance (ChunkOK_congr rfl (chunkOK_initCompiler _ h0))
  have h2 := chunkOK_compileLoop fuel _ h1
  constructor
  · exact chunkOK_endCompiler h2
  · intro f hf
    have hfn : lockstep (endCompiler (compileLoop fuel (advance
        { initCompiler .SCRIPT (initSt toks) with
          hadError := false, panicMode := false }))).1.chunk :=
      lockstep_endCompiler_fn h2
    by_cases hcase : (endCompiler (compileLoop fuel (advance
        { initCompiler .SCRIPT (initSt toks) with
          hadError := false, panicMode := false }))).2.2.hadError = true
    · have : (compile fuel toks).1 = none := by
        simp only [compile]
        rw [if_pos hcase]
      rw [this] at hf
      cases hf
    · have : (compile fuel toks).1 = some (endCompiler (compileLoop fuel (advance
          { initCompiler .SCRIPT (initSt toks) with
            hadError := false, panicMode := false }))).1 := by
        simp only [compile]
        rw [if_neg hcase]
      rw [this] at hf
      cases hf
      exact hfn

end EngineInvariant

/-- Claim C4: compiling `var a = 3; print a;` succeeds, and the top-level
chunk's code is exactly CONSTANT k1, DEFINE_GLOBAL k0, GET_GLOBAL k2,
PRINT, NIL, RETURN, the constant pool being built in the order k0 = "a"
(the declaration's name), k1 = 3 (the initialiser), k2 = "a" (the use site:
each identifier use adds a fresh pool entry). -/
theorem global_var_scenario_bytecode :
    (compile 100 c4toks).2.hadError = false ∧
    (compile 100 c4toks).1.map (fun f => f.chunk.code) =
      some [OP_CONSTANT, 1, OP_DEFINE_GLOBAL, 0, OP_GET_GLOBAL, 2,
            OP_PRINT, OP_NIL, OP_RETURN] ∧
    (compile 100 c4toks).1.map (fun f => f.chunk.constants.map constShape) =
      some [some (.inr "a"), some (.inl 3), some (.inr "a")] :=
  ⟨by decide, by decide, by decide⟩

/-- Claim C5: a chunk starts with code and lines arrays of equal (zero)
length, writeChunk appends one code byte and one line number together, a
jump patch rewrites bytes in place without changing either length, every
compiled declaration preserves the every-frame lockstep invariant (so the
invariant holds at every observable point between declarations), compile
itself ends with every frame's chunk — and the compiled function's chunk —
in lockstep for every input and fuel, and the scenario-2 compilation ends
with both arrays at length 9. -/
theorem chunk_code_lines_lockstep :
    initChunk.code.length = initChunk.lines.length ∧
    (∀ ch : Chunk, ∀ b l : Nat,
       (writeChunk ch b l).code.length = ch.code.length + 1 ∧
       (writeChunk ch b l).lines.length = ch.lines.length + 1) ∧
    (∀ ch : Chunk, ∀ b l : Nat, ch.code.length = ch.lines.length →
       (writeChunk ch b l).code.length = (writeChunk ch b l).lines.length) ∧
    (∀ ch : Chunk, ∀ i b : Nat,
       (Chunk.setByte ch i b).code.length = ch.code.length ∧
       (Chunk.setByte ch i b).lines.length = ch.lines.length) ∧
    (∀ fuel : Nat, ∀ st : St, ChunkOK st → ChunkOK (declaration fuel st)) ∧
    (∀ fuel : Nat, ∀ toks : List Token,
       ChunkOK (compile fuel toks).2 ∧
       ∀ f : ObjFunction, (compile fuel toks).1 = some f →
         f.chunk.code.length = f.chunk.lines.length) ∧
    (compile 100 c4toks).1.map
        (fun f => (f.chunk.code.length, f.chunk.lines.length)) = some (9, 9) := by
  refine ⟨rfl, ?_, ?_, ?_, ?_, ?_, by decide⟩
  · intro ch b l
    rw [writeChunk_code, writeChunk_lines]
    simp
  · intro ch b l h
    rw [writeChunk_code, writeChunk_lines]
    simp [h]
  · intro ch i b
    rw [setByte_code, setByte_lines]
    simp
  · intro fuel st h
    exact (engine_chunkOK fuel).2.2.2.2.2.2.2.2.2.2.2.2.2.2.2.2.2.2.2.2.2.2.2.2.2.2.2.2.2.2.2.2.1
      st h
  · intro fuel toks
    exact chunkOK_compile fuel toks

/-- Claim C5 witness: the lockstep preservation applied to the empty chunk
and one concrete write, the declaration-level preservation applied to a
concrete script state, and the compile-level invariant at the scenario-2
input. -/
theorem chunk_code_lines_lockstep_witness :
    initChunk.code.length = initChunk.lines.length ∧
    (writeChunk initChunk 7 3).code.length = (writeChunk initChunk 7 3).lines.length ∧
    ChunkOK (declaration 1 scriptSt) ∧
    ChunkOK (compile 100 c4toks).2 :=
  ⟨chunk_code_lines_lockstep.1,
   chunk_code_lines_lockstep.2.2.1 initChunk 7 3 chunk_code_lines_lockstep.1,
   chunk_code_lines_lockstep.2.2.2.2.1 1 scriptSt
     (by intro f hm
         cases hm with
         | head => rfl
         | tail _ hm2 => cases hm2),
   (chunk_code_lines_lockstep.2.2.2.2.2.1 100 c4toks).1⟩

/-- Claim C6 counterexample: immediately after initCompiler for a script,
scopeDepth is 0 yet the locals stack is not empty; it holds the reserved
slot-0 local, so "at scopeDepth 0 the locals stack contains no locals" is
false as stated. -/
theorem top_level_reserved_slot_counterexample :
    (initCompiler .SCRIPT (initSt [])).curFrame.scopeDepth = 0 ∧
    (initCompiler .SCRIPT (initSt [])).curFrame.locals.length = 1 ∧
    (initCompiler .SCRIPT (initSt [])).curFrame.locals ≠ [] :=
  ⟨by decide, by decide, by decide⟩

/-- Claim C6 as amended: at scopeDepth 0 the locals stack holds exactly the
reserved slot-0 local initCompiler pushes (this, or the empty name for
plain functions) and never user locals: declareVariable and
markInitialized are no-ops at depth 0, parseVariable interns the name
instead, and defineVariable addresses it as a global by the interned name
(OP_DEFINE_GLOBAL). -/
theorem top_level_locals_amended :
    (∀ ftype : FunctionType, ∀ st : St,
       (initCompiler ftype st).curFrame.scopeDepth = 0 ∧
       (initCompiler ftype st).curFrame.locals =
         [if ftype ≠ .FUNCTION then ⟨"this", 0, false⟩ else ⟨"", 0, false⟩]) ∧
    (∀ st : St, st.curFrame.scopeDepth = 0 → declareVariable st = st) ∧
    (∀ st : St, st.curFrame.scopeDepth = 0 → markInitialized st = st) ∧
    (∀ m : String, ∀ st : St, st.curFrame.scopeDepth = 0 →
       parseVariable m st =
         identifierConstant (consume .IDENTIFIER m st).prev.lexeme
           (consume .IDENTIFIER m st)) ∧
    (∀ g : Nat, ∀ st : St, st.curFrame.scopeDepth = 0 →
       defineVariable g st = emitBytes OP_DEFINE_GLOBAL g st) := by
  refine ⟨?_, ?_, ?_, ?_, ?_⟩
  · intro ftype st
    constructor
    · simp [initCompiler, St.curFrame]
    · simp [initCompiler, St.curFrame]
  · intro st h
    unfold declareVariable
    simp [h]
  · intro st h
    unfold markInitialized
    simp [h]
  · intro m st h
    have hc : (consume .IDENTIFIER m st).curFrame.scopeDepth = 0 := by
      rw [consume_curFrame]; exact h
    have hd : declareVariable (consume .IDENTIFIER m st) = consume .IDENTIFIER m st := by
      unfold declareVariable; simp [hc]
    simp only [parseVariable]
    rw [hd, hc]
    simp
  · intro g st h
    unfold defineVariable
    simp [h]

theorem modFrame_msgs (g : Frame → Frame) (st : St) :
    (modFrame g st).msgs = st.msgs := rfl

theorem modFrame_hadError (g : Frame → Frame) (st : St) :
    (modFrame g st).hadError = st.hadError := rfl

theorem modFrame_curFrame (g : Frame → Frame) (st : St) :
    (modFrame g st).curFrame = g st.curFrame := by
  simp [modFrame, curFrame_setCurFrame]

/-- Claim C3: emitReturn emits GET_LOCAL 0 then RETURN inside an
initializer and NIL then RETURN otherwise; endCompiler ends every compiled
function with exactly that sequence; and a bare `return;` statement emits
the same sequence. -/
theorem implicit_return_sequence :
    (∀ st : St, (emitReturn st).curFrame.chunk.code =
       st.curFrame.chunk.code ++
         (if st.curFrame.ftype = .INITIALIZER then [OP_GET_LOCAL, 0, OP_RETURN]
          else [OP_NIL, OP_RETURN])) ∧
    (∀ st : St, (endCompiler st).1.chunk = (emitReturn st).curFrame.chunk) ∧
    (∀ fuel : Nat, ∀ st : St, st.cur.ttype = .SEMICOLON →
       (returnStatement (fuel + 1) st).curFrame.chunk.code =
         st.curFrame.chunk.code ++
           (if st.curFrame.ftype = .INITIALIZER then [OP_GET_LOCAL, 0, OP_RETURN]
            else [OP_NIL, OP_RETURN])) := by
  refine ⟨emitReturn_code, ?_, ?_⟩
  · intro st
    simp [endCompiler, ObjFunction.chunk]
  · intro fuel st h
    simp only [returnStatement]
    have hcur :
        (if st.curFrame.ftype = .SCRIPT then
            errorP "can't return from top-level code." st
         else st).cur = st.cur := by
      split

      · exact errorAt_cur _ _
      · rfl
    have hfr :
        (if st.curFrame.ftype = .SCRIPT then
            errorP "can't return from top-level code." st
         else st).curFrame = st.curFrame := by
      split
      · exact errorP_curFrame _ _
      · rfl
    simp only [matchTok, hcur, h, if_pos]
    rw [emitReturn_code, advance_curFrame, hfr]

/-- Claim C3 witness: the bare return inside a plain function emits NIL,
RETURN, and inside an initializer GET_LOCAL 0, RETURN. -/
theorem implicit_return_sequence_witness :
    bareRetSt.cur.ttype = .SEMICOLON ∧
    (returnStatement 5 bareRetSt).curFrame.chunk.code = [OP_NIL, OP_RETURN] ∧
    (returnStatement 5 bareRetInitSt).curFrame.chunk.code =
      [OP_GET_LOCAL, 0, OP_RETURN] := by
  refine ⟨rfl, ?_, ?_⟩
  · have h := implicit_return_sequence.2.2 4 bareRetSt rfl
    simpa using h
  · have h := implicit_return_sequence.2.2 4 bareRetInitSt rfl
    simpa using h

/-- Claim C2 counterexample: at jump distance 65536 the reported diagnostic
is "Cannot jump this far !" (the source's text, with an exclamation mark),
so patchJump never reports the claim's quoted message "Cannot jump this
far". -/
theorem patchJump_message_counterexample :
    bigChunkSt.curFrame.chunk.code.length - 1 - 2 = 65536 ∧
    (patchJump 1 bigChunkSt).msgs = ["Cannot jump this far !"] ∧
    "Cannot jump this far" ∉ (patchJump 1 bigChunkSt).msgs := by
  have hfr : bigChunkSt.curFrame =
      { defaultFrame with
        chunk := .mk (List.replicate 65539 0) (List.replicate 65539 0) [] } := rfl
  have hlen : bigChunkSt.curFrame.chunk.code.length = 65539 := by
    rw [hfr]
    exact List.length_replicate _ _
  have hmsgs : (patchJump 1 bigChunkSt).msgs = ["Cannot jump this far !"] := by
    simp only [patchJump, hlen, modFrame_msgs]
    norm_num
    simp only [errorP]
    rw [errorAt_msgs_of]
    · rfl
    · rfl
  refine ⟨by rw [hlen], hmsgs, ?_⟩
  rw [hmsgs]
  simp

/-- Claim C2 as amended: emitJump writes the opcode and two 0xff
placeholders and returns the offset of the first placeholder; patchJump
computes dist = count - offset - 2, reports "Cannot jump this far !" (the
source's spelling of the diagnostic) exactly when dist exceeds 65535, and
writes dist (its low 16 bits) big-endian over the two placeholder bytes. -/
theorem emitJump_patchJump_spec :
    (∀ instr : Nat, ∀ st : St,
       (emitJump instr st).1 = st.curFrame.chunk.code.length + 1 ∧
       (emitJump instr st).2.curFrame.chunk.code =
         st.curFrame.chunk.code ++ [instr, 255, 255]) ∧
    (∀ off : Nat, ∀ st : St,
       (patchJump off st).curFrame.chunk.code =
         (st.curFrame.chunk.code.set off
            ((st.curFrame.chunk.code.length - off - 2) / 256 % 256)).set (off + 1)
           ((st.curFrame.chunk.code.length - off - 2) % 256)) ∧
    (∀ off : Nat, ∀ st : St, st.panicMode = false →
       (st.curFrame.chunk.code.length - off - 2 > 65535 →
          (patchJump off st).msgs = st.msgs ++ ["Cannot jump this far !"] ∧
          (patchJump off st).hadError = true) ∧
       (st.curFrame.chunk.code.length - off - 2 ≤ 65535 →
          (patchJump off st).msgs = st.msgs)) := by
  refine ⟨?_, ?_, ?_⟩
  · intro instr st
    constructor
    · simp only [emitJump]
      rw [emitByte_code, emitByte_code, emitByte_code]
      simp
    · simp only [emitJump]
      rw [emitByte_code, emitByte_code, emitByte_code]
      simp
  · intro off st
    simp only [patchJump]
    split
    · rw [modFrame_curFrame, setByte_code, setByte_code, errorP_curFrame]
    · rw [modFrame_curFrame, setByte_code, setByte_code]
  · intro off st hp
    constructor
    · intro hgt
      simp only [patchJump, if_pos hgt, modFrame_msgs, modFrame_hadError, errorP]
      exact ⟨errorAt_msgs_of _ _ hp, errorAt_hadError_of _ _ hp⟩
    · intro hle
      have : ¬ st.curFrame.chunk.code.length - off - 2 > 65535 := by omega
      simp only [patchJump, if_neg this, modFrame_msgs]

/-- Claim C2 witness: a small in-range patch (distance 7) leaves the
diagnostics unchanged, at a concrete 10-byte chunk. -/
theorem emitJump_patchJump_witness :
    smallChunkSt.panicMode = false ∧
    smallChunkSt.curFrame.chunk.code.length - 1 - 2 ≤ 65535 ∧
    (patchJump 1 smallChunkSt).msgs = smallChunkSt.msgs :=
  ⟨rfl, by decide,
   (emitJump_patchJump_spec.2.2 1 smallChunkSt rfl).2 (by decide)⟩

theorem addConstant_snd (ch : Chunk) (v : Value) :
    (addConstant ch v).2 = ch.constants.length := by
  cases ch <;> rfl

theorem addConstant_fst_constants (ch : Chunk) (v : Value) :
    (addConstant ch v).1.constants = ch.constants ++ [v] := by
  cases ch <;> rfl

theorem addConstant_fst_code (ch : Chunk) (v : Value) :
    (addConstant ch v).1.code = ch.code := by
  cases ch <;> rfl

theorem setCurFrame_msgs (st : St) (f : Frame) :
    (st.setCurFrame f).msgs = st.msgs := rfl

theorem setCurFrame_panicMode (st : St) (f : Frame) :
    (st.setCurFrame f).panicMode = st.panicMode := rfl

/-- Claim C9: when an 8-bit index capacity is exceeded, the operation
reports an error and returns index 0 and compilation continues.  For the
257th constant of a chunk, makeConstant still appends it to the pool (257
entries), reports "Too many constants in one chunks." and returns 0, and
emitConstant then emits OP_CONSTANT with operand byte 0; for the 257th
distinct upvalue, addUpvalue reports "Too many closure variable in
function.", adds nothing, and returns 0. -/
theorem overflow_reports_and_returns_zero :
    (∀ v : Value, ∀ st : St, st.curFrame.chunk.constants.length = 256 →
       (makeConstant v st).1 = 0 ∧
       (st.panicMode = false →
          (makeConstant v st).2.msgs = st.msgs ++ ["Too many constants in one chunks."] ∧
          (makeConstant v st).2.hadError = true) ∧
       (makeConstant v st).2.curFrame.chunk.constants.length = 257 ∧
       (emitConstant v st).curFrame.chunk.code =
         st.curFrame.chunk.code ++ [OP_CONSTANT, 0]) ∧
    (∀ f : Frame, ∀ idx : Nat, ∀ b : Bool, ∀ st : St,
       f.upvalues.length = 256 → findUpvalue f.upvalues idx b 0 = none →
       addUpvalue f idx b st =
         (0, f, errorP "Too many closure variable in function." st)) := by
  constructor
  · intro v st h
    have h2 : (addConstant st.curFrame.chunk v).2 = 256 := by
      rw [addConstant_snd, h]
    have hgt : (addConstant st.curFrame.chunk v).2 > 255 := by omega
    have hmk : makeConstant v st =
        (0, errorP "Too many constants in one chunks."
              (st.setCurFrame
                { st.curFrame with chunk := (addConstant st.curFrame.chunk v).1 })) := by
      simp only [makeConstant]
      rw [if_pos hgt]
    have hcf : (makeConstant v st).2.curFrame =
        { st.curFrame with chunk := (addConstant st.curFrame.chunk v).1 } := by
      rw [hmk]
      show (errorP _ _).curFrame = _
      rw [errorP_curFrame, curFrame_setCurFrame]
    refine ⟨by rw [hmk], ?_, ?_, ?_⟩
    · intro hp
      rw [hmk]
      simp only [errorP]
      constructor
      · rw [errorAt_msgs_of _ _ (by rw [setCurFrame_panicMode]; exact hp)]
        rw [setCurFrame_msgs]
      · exact errorAt_hadError_of _ _ (by rw [setCurFrame_panicMode]; exact hp)
    · rw [hcf]
      show (addConstant st.curFrame.chunk v).1.constants.length = 257
      rw [addConstant_fst_constants]
      simp [h]
    · show (emitBytes OP_CONSTANT (makeConstant v st).1
          (makeConstant v st).2).curFrame.chunk.code = _
      rw [emitBytes_code, hcf]
      show (addConstant st.curFrame.chunk v).1.code ++ _ = _
      rw [addConstant_fst_code]
      rw [hmk]
  · intro f idx b st h hfind
    simp only [addUpvalue, hfind]
    rw [if_pos h]

set_option maxRecDepth 4000 in
/-- Claim C9 witness: the 257th constant and the 257th distinct upvalue at
concrete full tables. -/
theorem overflow_reports_witness :
    fullPoolSt.curFrame.chunk.constants.length = 256 ∧
    (makeConstant (.vnum 5) fullPoolSt).1 = 0 ∧
    (makeConstant (.vnum 5) fullPoolSt).2.msgs =
      ["Too many constants in one chunks."] ∧
    (emitConstant (.vnum 5) fullPoolSt).curFrame.chunk.code = [OP_CONSTANT, 0] ∧
    fullUpvalFrame.upvalues.length = 256 ∧
    findUpvalue fullUpvalFrame.upvalues 1 true 0 = none ∧
    (addUpvalue fullUpvalFrame 1 true scriptSt).1 = 0 ∧
    (addUpvalue fullUpvalFrame 1 true scriptSt).2.2.msgs =
      ["Too many closure variable in function."] := by
  have hlen : fullPoolSt.curFrame.chunk.constants.length = 256 := by
    show (List.replicate 256 (Value.vnum 0)).length = 256
    exact List.length_replicate _ _
  have h := overflow_reports_and_returns_zero.1 (.vnum 5) fullPoolSt hlen
  have hf : findUpvalue fullUpvalFrame.upvalues 1 true 0 = none := by decide
  have hu := overflow_reports_and_returns_zero.2 fullUpvalFrame 1 true scriptSt
    (by decide) hf
  refine ⟨hlen, h.1, ?_, ?_, by decide, hf, by rw [hu], by rw [hu]; rfl⟩
  · have := (h.2.1 rfl).1
    simpa using this
  · simpa using h.2.2.2

/-- Claim C8: a resolveLocal hit on a local whose depth is the -1 sentinel
reports "Can't read local variable in its own initializer." but still
returns the slot index (not -1), and namedVariable then emits GET_LOCAL
(or SET_LOCAL) addressing that very slot; in the scenario-10 program the
diagnostic is reported and GET_LOCAL 2 is still emitted. -/
theorem uninitialized_local_still_addressed :
    (∀ pre : List (Nat × Local), ∀ i : Nat, ∀ l : Local,
       ∀ rest : List (Nat × Local), ∀ name : String, ∀ st : St,
       (∀ p ∈ pre, p.2.name ≠ name) → l.name = name → l.depth = -1 →
       resolveLocalAux (pre ++ (i, l) :: rest) name st =
         ((i : Int), errorP "Can't read local variable in its own initializer." st)) ∧
    (∀ fuel : Nat, ∀ name : String, ∀ st st2 : St, ∀ i : Nat,
       resolveLocal st.curFrame name st = (Int.ofNat i, st2) →
       namedVariable (fuel + 1) name false st = emitBytes OP_GET_LOCAL (i % 256) st2) ∧
    (c8st.msgs = ["Can't read local variable in its own initializer."] ∧
     c8st.hadError = true ∧
     c8st.curFrame.chunk.code = [OP_CONSTANT, 0, OP_GET_LOCAL, 2, OP_POP, OP_POP]) := by
  refine ⟨?_, ?_, by decide, by decide, by decide⟩
  · intro pre i l rest name st hpre hname hdepth
    induction pre with
    | nil =>
      simp only [List.nil_append, resolveLocalAux, identifiersEqual, hname, hdepth]
      simp
    | cons p pre ih =>
      obtain ⟨j, q⟩ := p
      have hq : q.name ≠ name := hpre (j, q) (List.mem_cons_self _ _)
      simp only [List.cons_append, resolveLocalAux, identifiersEqual]
      rw [if_neg (by simpa using hq)]
      exact ih (fun p hp => hpre p (List.mem_cons_of_mem _ hp))
  · intro fuel name st st2 i h
    simp only [namedVariable, h]
    have : (Int.ofNat i) ≠ -1 := by simp
    rw [if_pos this]
    simp

/-- Claim C8 witness: a frame whose top local a is declared (depth -1);
resolving a reports the diagnostic yet yields slot 1, and namedVariable
emits GET_LOCAL 1 after the error. -/
theorem uninitialized_local_witness :
    resolveLocal uninitSt.curFrame "a" uninitSt =
      (1, errorP "Can't read local variable in its own initializer." uninitSt) ∧
    namedVariable 3 "a" false uninitSt =
      emitBytes OP_GET_LOCAL 1
        (errorP "Can't read local variable in its own initializer." uninitSt) ∧
    (namedVariable 3 "a" false uninitSt).msgs =
      ["Can't read local variable in its own initializer."] ∧
    (namedVariable 3 "a" false uninitSt).curFrame.chunk.code = [OP_GET_LOCAL, 1] := by
  have h1 :
      resolveLocal uninitSt.curFrame "a" uninitSt =
        (1, errorP "Can't read local variable in its own initializer." uninitSt) :=
    uninitialized_local_still_addressed.1 [] 1 ⟨"a", -1, false⟩ [(0, ⟨"this", 0, false⟩)]
      "a" uninitSt (by decide) rfl rfl
  have h2 := uninitialized_local_still_addressed.2.1 2 "a" uninitSt
    (errorP "Can't read local variable in its own initializer." uninitSt) 1 h1
  exact ⟨h1, h2, by decide, by decide⟩

theorem resolveLocalAux_first (i : Nat) (l : Local) (rest : List (Nat × Local))
    (name : String) (st : St) :
    ∀ pre : List (Nat × Local), (∀ p ∈ pre, p.2.name ≠ name) → l.name = name →
      resolveLocalAux (pre ++ (i, l) :: rest) name st =
        ((i : Int),
         if l.depth = -1 then
           errorP "Can't read local variable in its own initializer." st
         else st) := by
  intro pre
  induction pre with
  | nil =>
    intro _ hname
    simp only [List.nil_append, resolveLocalAux]
    rw [if_pos (by simp [identifiersEqual, hname])]
  | cons p pre ih =>
    intro hpre hname
    obtain ⟨j, q⟩ := p
    have hq : q.name ≠ name := hpre (j, q) (List.mem_cons_self _ _)
    simp only [List.cons_append, resolveLocalAux, identifiersEqual]
    rw [if_neg (by simpa using hq)]
    exact ih (fun p hp => hpre p (List.mem_cons_of_mem _ hp)) hname

theorem resolveLocalAux_none (name : String) (st : St) :
    ∀ items : List (Nat × Local), (∀ p ∈ items, p.2.name ≠ name) →
      resolveLocalAux items name st = (-1, st) := by
  intro items
  induction items with
  | nil => intro _; rfl
  | cons p items ih =>
    intro hall
    obtain ⟨j, q⟩ := p
    have hq : q.name ≠ name := hall (j, q) (List.mem_cons_self _ _)
    simp only [resolveLocalAux, identifiersEqual]
    rw [if_neg (by simpa using hq)]
    exact ih (fun p hp => hall p (List.mem_cons_of_mem _ hp))

theorem markCapturedAt_get (i : Nat) (l : Local) :
    ∀ ls : List Local, ls.get? i = some l →
      (markCapturedAt ls i).get? i = some { l with isCaptured := true } := by
  induction i with
  | zero =>
    intro ls h
    cases ls with
    | nil => simp at h
    | cons x ls =>
      simp only [List.get?] at h
      cases h
      rfl
  | succ i ih =>
    intro ls h
    cases ls with
    | nil => simp at h
    | cons x ls =>
      simp only [List.get?] at h
      simp only [markCapturedAt, List.get?]
      exact ih ls h

/-- Claim C1: name resolution order at a use site.  (a) resolveLocal walks
the locals from the top of the stack downward and the first name match
yields that slot index, diagnosing a -1 depth; with no match it yields -1.
(b) When the name is a local of the immediate parent, resolveUpvalue marks
that local captured (markCapturedAt sets the flag at its slot) and records
the upvalue {index = local slot, isLocal = true} through addUpvalue, which
appends the fresh descriptor and returns its index; a hit on the parent's
upvalues records {index = parent upvalue index, isLocal = false}.  (c)
namedVariable uses the local slot first, else the upvalue index, else
interns the name into the constant pool (a fresh entry at the old pool
size) and emits the by-name global opcode. -/
theorem resolution_order_local_upvalue_global :
    (∀ pre : List (Nat × Local), ∀ i : Nat, ∀ l : Local,
       ∀ rest : List (Nat × Local), ∀ name : String, ∀ st : St,
       (∀ p ∈ pre, p.2.name ≠ name) → l.name = name →
       resolveLocalAux (pre ++ (i, l) :: rest) name st =
         ((i : Int),
          if l.depth = -1 then
            errorP "Can't read local variable in its own initializer." st
          else st)) ∧
    (∀ items : List (Nat × Local), ∀ name : String, ∀ st : St,
       (∀ p ∈ items, p.2.name ≠ name) →
       resolveLocalAux items name st = (-1, st)) ∧
    (∀ fuel : Nat, ∀ name : String, ∀ st st2 : St, ∀ i : Nat,
       resolveLocal st.curFrame name st = (Int.ofNat i, st2) →
       namedVariable (fuel + 1) name false st =
         emitBytes OP_GET_LOCAL (i % 256) st2) ∧
    (∀ f e : Frame, ∀ rest : List Frame, ∀ name : String, ∀ st st2 : St, ∀ i : Nat,
       resolveLocal e name st = (Int.ofNat i, st2) →
       resolveUpvalue (f :: e :: rest) name st =
         ((addUpvalue f (i % 256) true st2).1,
          (addUpvalue f (i % 256) true st2).2.1 ::
            { e with locals := markCapturedAt e.locals (i % 256) } :: rest,
          (addUpvalue f (i % 256) true st2).2.2)) ∧
    (∀ f e : Frame, ∀ rest : List Frame, ∀ name : String, ∀ st st2 st3 : St,
       ∀ u : Nat, ∀ e2 : Frame, ∀ rest2 : List Frame,
       resolveLocal e name st = (-1, st2) →
       resolveUpvalue (e :: rest) name st2 = (Int.ofNat u, e2 :: rest2, st3) →
       resolveUpvalue (f :: e :: rest) name st =
         ((addUpvalue f (u % 256) false st3).1,
          (addUpvalue f (u % 256) false st3).2.1 :: e2 :: rest2,
          (addUpvalue f (u % 256) false st3).2.2)) ∧
    (∀ f : Frame, ∀ idx : Nat, ∀ b : Bool, ∀ st : St,
       findUpvalue f.upvalues idx b 0 = none → f.upvalues.length ≠ 256 →
       addUpvalue f idx b st =
         ((f.upvalues.length : Int),
          { f with upvalues := f.upvalues ++ [⟨idx, b⟩] }, st)) ∧
    (∀ i : Nat, ∀ l : Local, ∀ ls : List Local, ls.get? i = some l →
       (markCapturedAt ls i).get? i = some { l with isCaptured := true }) ∧
    (∀ fuel : Nat, ∀ name : String, ∀ st st2 st3 : St, ∀ u : Nat,
       ∀ ch : List Frame,
       resolveLocal st.curFrame name st = (-1, st2) →
       resolveUpvalue st2.frames name st2 = (Int.ofNat u, ch, st3) →
       namedVariable (fuel + 1) name false st =
         emitBytes OP_GET_UPVALUE (u % 256) { st3 with frames := ch }) ∧
    (∀ fuel : Nat, ∀ name : String, ∀ st st2 st3 : St, ∀ ch : List Frame,
       resolveLocal st.curFrame name st = (-1, st2) →
       resolveUpvalue st2.frames name st2 = (-1, ch, st3) →
       namedVariable (fuel + 1) name false st =
         emitBytes OP_GET_GLOBAL
           ((identifierConstant name { st3 with frames := ch }).1 % 256)
           (identifierConstant name { st3 with frames := ch }).2) ∧
    (∀ name : String, ∀ st : St, st.curFrame.chunk.constants.length ≤ 255 →
       (identifierConstant name st).1 = st.curFrame.chunk.constants.length ∧
       (identifierConstant name st).2.curFrame.chunk.constants =
         st.curFrame.chunk.constants ++ [.vstr name] ∧
       (identifierConstant name st).2.msgs = st.msgs) := by
  refine ⟨fun pre i l rest name st h1 h2 => resolveLocalAux_first i l rest name st pre h1 h2,
    fun items name st h => resolveLocalAux_none name st items h,
    ?_, ?_, ?_, ?_,
    fun i l ls h => markCapturedAt_get i l ls h,
    ?_, ?_, ?_⟩
  · intro fuel name st st2 i h
    simp only [namedVariable, h]
    have : (Int.ofNat i) ≠ -1 := by simp
    rw [if_pos this]
    simp
  · intro f e rest name st st2 i h
    simp only [resolveUpvalue, h]
    have : (Int.ofNat i) ≠ -1 := by simp
    rw [if_pos this]
    simp [Int.toNat_ofNat]
  · intro f e rest name st st2 st3 u e2 rest2 h1 h2
    simp only [resolveUpvalue, h1]
    rw [if_neg (by simp)]
    simp only [h2]
    have : (Int.ofNat u) ≠ -1 := by simp
    rw [if_pos this]
    simp [Int.toNat_ofNat]
  · intro f idx b st hfind hlen
    simp only [addUpvalue, hfind]
    rw [if_neg hlen]
  · intro fuel name st st2 st3 u ch h1 h2
    simp only [namedVariable, h1]
    rw [if_neg (by simp)]
    rw [h2]
    have : (Int.ofNat u) ≠ -1 := by simp
    rw [if_pos this]
    simp
  · intro fuel name st st2 st3 ch h1 h2
    simp only [namedVariable, h1]
    rw [if_neg (by simp)]
    rw [h2]
    simp
  · intro name st h
    have h2 : (addConstant st.curFrame.chunk (.vstr name)).2 =
        st.curFrame.chunk.constants.length := addConstant_snd _ _
    have hle : ¬ (addConstant st.curFrame.chunk (.vstr name)).2 > 255 := by omega
    have hmk : identifierConstant name st =
        (st.curFrame.chunk.constants.length,
         st.setCurFrame
           { st.curFrame with
             chunk := (addConstant st.curFrame.chunk (.vstr name)).1 }) := by
      simp only [identifierConstant, makeConstant]
      rw [if_neg hle, h2]
    refine ⟨by rw [hmk], ?_, by rw [hmk]; exact setCurFrame_msgs st _⟩
    rw [hmk]
    show (st.setCurFrame _).curFrame.chunk.constants = _
    rw [curFrame_setCurFrame]
    show (addConstant st.curFrame.chunk (.vstr name)).1.constants = _
    rw [addConstant_fst_constants]

/-- Claim C1 witness: a two-frame chain where the parent owns local x at
slot 1; resolving x from the inner function takes the local of the parent,
marks it captured and records the upvalue {1, true} at index 0; a name
with no local or upvalue is interned and read through GET_GLOBAL. -/
theorem resolution_order_witness :
    resolveLocal outerFrame "x" chainSt = (Int.ofNat 1, chainSt) ∧
    resolveUpvalue [innerFrame, outerFrame] "x" chainSt =
      ((addUpvalue innerFrame 1 true chainSt).1,
       (addUpvalue innerFrame 1 true chainSt).2.1 ::
         { outerFrame with locals := markCapturedAt outerFrame.locals 1 } :: [],
       (addUpvalue innerFrame 1 true chainSt).2.2) ∧
    (resolveUpvalue [innerFrame, outerFrame] "x" chainSt).1 = 0 ∧
    ((resolveUpvalue [innerFrame, outerFrame] "x" chainSt).2.1.headD
        defaultFrame).upvalues = [⟨1, true⟩] ∧
    (((resolveUpvalue [innerFrame, outerFrame] "x" chainSt).2.1.getD 1
        defaultFrame).locals.map Local.isCaptured) = [false, true] ∧
    (namedVariable 3 "g" false scriptSt).curFrame.chunk.code =
      [OP_GET_GLOBAL, 0] ∧
    (namedVariable 3 "g" false scriptSt).curFrame.chunk.constants.map constShape =
      [some (.inr "g")] := by
  have h1 : resolveLocal outerFrame "x" chainSt = (Int.ofNat 1, chainSt) := by
    have := resolution_order_local_upvalue_global.1 []
      1 ⟨"x", 1, false⟩ [(0, ⟨"", 0, false⟩)] "x" chainSt (by decide) rfl
    rw [if_neg (by decide)] at this
    exact this
  have h2 := resolution_order_local_upvalue_global.2.2.2.1 innerFrame outerFrame []
    "x" chainSt chainSt 1 h1
  have h3 := resolution_order_local_upvalue_global.2.2.2.2.2.2.2.2.1 2 "g" scriptSt
    scriptSt scriptSt [defaultFrame] rfl rfl
  refine ⟨h1, by simpa using h2, by decide, by decide, by decide,
    by rw [h3, emitBytes_code]; decide, by decide⟩

theorem argLoop_eq_pair (fuel : Nat) :
    ∀ c : Nat, ∀ st : St,
      argLoop fuel c st = ((argLoopPair fuel c st).1, (argLoopPair fuel c st).2.2) := by
  induction fuel with
  | zero => intro c st; rfl
  | succ fuel ih =>
    intro c st
    simp only [argLoop, argLoopPair]
    split
    · split
      · dsimp only
        exact ih _ _
      · rfl
    · split
      · dsimp only
        exact ih _ _
      · rfl

theorem argLoopPair_mod (fuel : Nat) :
    ∀ c : Nat, ∀ st : St, c < 256 →
      (argLoopPair fuel c st).1 = (c + (argLoopPair fuel c st).2.1) % 256 := by
  induction fuel with
  | zero =>
    intro c st h
    simp only [argLoopPair]
    rw [Nat.add_zero]
    exact (Nat.mod_eq_of_lt h).symm
  | succ fuel ih =>
    intro c st h
    simp only [argLoopPair]
    split
    · split
      · dsimp only
        rw [ih _ _ (Nat.mod_lt _ (by norm_num))]
        omega
      · dsimp only
    · split
      · dsimp only
        rw [ih _ _ (Nat.mod_lt _ (by norm_num))]
        omega
      · dsimp only

/-- Claim C10: argumentList counts arguments in an 8-bit counter.  The
loop's returned count byte equals the exact number of parsed argument
expressions (argLoopPair's iteration count, an identical computation that
also counts iterations) modulo 256; the iteration whose counter is already
255 reports "Can't have more than 255 arguments." and wraps the counter to
0 while parsing continues; any other iteration reports nothing and
increments modulo 256; and call emits OP_CALL followed by exactly that
count byte. -/
theorem argument_count_wraps_mod_256 :
    (∀ fuel c : Nat, ∀ st : St,
       argLoop fuel c st = ((argLoopPair fuel c st).1, (argLoopPair fuel c st).2.2)) ∧
    (∀ fuel c : Nat, ∀ st : St, c < 256 →
       (argLoopPair fuel c st).1 = (c + (argLoopPair fuel c st).2.1) % 256) ∧
    (∀ fuel : Nat, ∀ st : St,
       (argLoop fuel 0 st).1 = (argLoopPair fuel 0 st).2.1 % 256) ∧
    (∀ fuel : Nat, ∀ st : St,
       argLoop (fuel + 1) 255 st =
         (if (matchTok .COMMA
               (errorP "Can't have more than 255 arguments."
                 (expression fuel st))).1 = true then
            argLoop fuel 0
              (matchTok .COMMA
                (errorP "Can't have more than 255 arguments."
                  (expression fuel st))).2
          else
            (0, (matchTok .COMMA
                  (errorP "Can't have more than 255 arguments."
                    (expression fuel st))).2))) ∧
    (∀ fuel c : Nat, ∀ st : St, c ≠ 255 →
       argLoop (fuel + 1) c st =
         (if (matchTok .COMMA (expression fuel st)).1 = true then
            argLoop fuel ((c + 1) % 256) (matchTok .COMMA (expression fuel st)).2
          else ((c + 1) % 256, (matchTok .COMMA (expression fuel st)).2))) ∧
    (∀ fuel : Nat, ∀ canAssign : Bool, ∀ st : St,
       call (fuel + 1) canAssign st =
         emitBytes OP_CALL (argumentList fuel st).1 (argumentList fuel st).2) := by
  refine ⟨fun fuel => argLoop_eq_pair fuel, fun fuel => argLoopPair_mod fuel, ?_, ?_, ?_, ?_⟩
  · intro fuel st
    rw [argLoop_eq_pair]
    simpa using argLoopPair_mod fuel 0 st (by norm_num)
  · intro fuel st
    simp only [argLoop]
    norm_num
  · intro fuel c st h
    simp only [argLoop]
    rw [if_neg h]
  · intro fuel canAssign st
    simp only [call]

/-- Claim C10 witness: a concrete two-argument list; the count byte is the
parsed count 2 modulo 256, via the general equalities at c = 0. -/
theorem argument_count_witness :
    (0 : Nat) < 256 ∧
    (argLoopPair 3 0 twoArgSt).1 = (0 + (argLoopPair 3 0 twoArgSt).2.1) % 256 ∧
    (argLoop 3 0 twoArgSt).1 = (argLoopPair 3 0 twoArgSt).2.1 % 256 ∧
    (argLoop 3 0 twoArgSt).1 = 2 ∧
    (argLoopPair 3 0 twoArgSt).2.1 = 2 := by
  refine ⟨by norm_num,
    argument_count_wraps_mod_256.2.1 3 0 twoArgSt (by norm_num),
    argument_count_wraps_mod_256.2.2.1 3 twoArgSt, by decide, by decide⟩

/-- Claim C7 counterexample: compiling `a + b = c;` sets hadError and
reports exactly one diagnostic, whose text is the source's misspelt
"Invalid assignement target." — the claim's quoted "Invalid assignment
target." is never reported. -/
theorem invalid_assignment_spelling_counterexample :
    (compile 100 c7toks).2.hadError = true ∧
    (compile 100 c7toks).2.msgs = ["Invalid assignement target."] ∧
    "Invalid assignment target." ∉ (compile 100 c7toks).2.msgs :=
  ⟨by decide, by decide, by decide⟩

/-- Claim C7 as amended: after parsePrecendence finishes its infix loop, if
canAssign is true and an = token remains, the compiler consumes it and
reports "Invalid assignement target." (the source's spelling), setting
hadError; compiling `a + b = c;` produces exactly this diagnostic with
hadError true. -/
theorem leftover_equal_diagnostic_amended :
    (∀ fuel precedence : Nat, ∀ st : St, ∀ p : PreFn,
       precedence ≤ PREC_ASSIGNMENT →
       (getRule (advance st).prev.ttype).pre = some p →
       (infixLoop fuel precedence true (runPre fuel p true (advance st))).cur.ttype =
         .EQUAL →
       parsePrecendence (fuel + 1) precedence st =
         errorP "Invalid assignement target."
           (advance (infixLoop fuel precedence true (runPre fuel p true (advance st))))) ∧
    ((compile 100 c7toks).2.msgs = ["Invalid assignement target."] ∧
     (compile 100 c7toks).2.hadError = true) := by
  refine ⟨?_, by decide, by decide⟩
  intro fuel precedence st p h1 h2 h3
  have hca : decide (precedence ≤ PREC_ASSIGNMENT) = true := decide_eq_true h1
  simp only [parsePrecendence, h2, hca]
  simp only [matchTok, h3, if_pos, if_true]

/-- Claim C7 witness: a leftover = right after a number literal (tokens
`1 = ;` at assignment precedence) takes the diagnostic branch. -/
theorem leftover_equal_witness :
    (getRule (advance leftoverEqSt).prev.ttype).pre = some .number ∧
    (infixLoop 0 1 true (runPre 0 .number true (advance leftoverEqSt))).cur.ttype =
      .EQUAL ∧
    (parsePrecendence 1 1 leftoverEqSt).msgs = ["Invalid assignement target."] ∧
    (parsePrecendence 1 1 leftoverEqSt).hadError = true := by
  have h := leftover_equal_diagnostic_amended.1 0 1 leftoverEqSt .number
    (by decide) (by decide) (by decide)
  exact ⟨by decide, by decide, by rw [h]; decide, by rw [h]; decide⟩

/-- Claim C6 witness: the amended no-op and by-name facts at a concrete
top-level state. -/
theorem top_level_locals_witness :
    scriptSt.curFrame.scopeDepth = 0 ∧
    declareVariable scriptSt = scriptSt ∧
    markInitialized scriptSt = scriptSt ∧
    defineVariable 7 scriptSt = emitBytes OP_DEFINE_GLOBAL 7 scriptSt :=
  ⟨by decide,
   top_level_locals_amended.2.1 scriptSt (by decide),
   top_level_locals_amended.2.2.1 scriptSt (by decide),
   top_level_locals_amended.2.2.2.2 7 scriptSt (by decide)⟩

end Lox
